import Mathlib

/-!
# LLM-aware request scheduling in higress: hosts and scheduler

A shallow embedding of

* `plugins/golang-filter/llm-scheduler/config.go` and `filter.go`
  (namespace `LlmScheduler`),
* `plugins/wasm-go/extensions/ai-load-balancer/main.go`
  (namespace `AiLoadBalancer`),
* the configuration check and the streaming response path of
  `plugins/wasm-go/extensions/ai-proxy/provider/hunyuan.go`
  (namespace `Provider`),

together with the scheduler contract of the specification (namespace
`Scheduling`), whose Go package is not part of the sources at hand.

Conventions.

* A Go `error` is its message (`String`); `Except String α` is a Go result
  pair `(α, error)`.
* A run that ends in a Go runtime panic (failed type assertion, index or slice
  bound out of range, nil dereference) is `none`; a run that returns is
  `some _`.  The streaming loop of the hunyuan provider, which is bounded by a
  step count, ends in a `Provider.Run` instead: `done`, `panic` or `outOfFuel`,
  the last of which never comes out of `OnStreamingResponseBody`.
* A Go `[]byte` is a list of bytes; `bytes.Index` returning `-1` is `none`.
* A Go map that is only ranged over is the list of its entries in the order in
  which that `range` visits them.  Go leaves this order unspecified, so a
  statement about a map is a statement about every such list.
* Calls made on the proxy (local replies, upstream-host overrides) and on the
  scheduler are recorded, in program order, in a list of `Call`s.  Log lines
  are not recorded.
-/

namespace Higress

/-! ## Values of type `interface{}` -/

/-- The Go values held by an `interface{}` that was decoded from JSON or from a
protobuf `Struct`. -/
inductive Value where
  | null
  | bool (b : Bool)
  | number (x : ℚ)
  | string (s : String)
  | list (xs : List Value)
  | struct (fields : List (String × Value))

/-! ## Package `backend` -/

namespace Backend

/-- The identity of one backend instance, `backend.Pod`. -/
structure Pod where
  Name : String
  Address : String
deriving DecidableEq, Repr

/-- Modelled from the spec: the fields of `backend.Metrics`, whose declaration is
not among the sources (the utilization record of the data model:
`activeRequests`, `waitingQueueLength`, `kvCacheUsageFraction`, all zero in
`backend.Metrics{}`). -/
structure Metrics where
  activeRequests : Nat
  waitingQueueLength : Nat
  kvCacheUsageFraction : ℚ
deriving DecidableEq, Repr

/-- The struct `backend.PodMetrics`, which embeds `Pod` and `Metrics`. -/
structure PodMetrics extends Pod, Metrics
deriving DecidableEq, Repr

/-- The literal `&backend.PodMetrics{Pod: backend.Pod{Name: addr, Address: addr},
Metrics: backend.Metrics{}}` built by both hosts. -/
def PodMetrics.fresh (addr : String) : PodMetrics :=
  { Name := addr, Address := addr,
    activeRequests := 0, waitingQueueLength := 0, kvCacheUsageFraction := 0 }

end Backend

open Backend

/-! ## Package `scheduling`: the types the hosts use -/

namespace Scheduling

/-- The request descriptor `scheduling.LLMRequest`. -/
structure LLMRequest where
  Model : String
  Critical : Bool
deriving DecidableEq, Repr

/-- Modelled from the spec: `scheduling.Scheduler`, whose declaration is not among
the sources; a scheduler closes over the fleet snapshot it was built from. -/
structure Scheduler where
  podMetrics : List PodMetrics
deriving DecidableEq, Repr

/-- Modelled from the spec: `scheduling.NewScheduler`, which is not among the
sources; the scheduler is constructed fresh from the snapshot. -/
def NewScheduler (pms : List PodMetrics) : Scheduler := ⟨pms⟩

end Scheduling

open Scheduling

/-! ## What the hosts import -/

/-- The functions of Go's package `net` used by `isValidAddress`. -/
structure Net where
  /-- The function `net.SplitHostPort`. -/
  SplitHostPort : String → Except String (String × String)
  /-- The function `net.LookupPort(network, service)`. -/
  LookupPort : String → String → Except String Nat
  /-- The function `net.ParseIP`; `none` is the nil IP. -/
  ParseIP : String → Option (List Nat)

/-- The packages both hosts call into: the exposition-text reader
(`expfmt.TextParser.TextToMetricFamilies`), the vLLM metric mapper
(`vllm.PromToPodMetrics`), the scheduler's `Schedule`, and package `net`.
`MF` is the type of the parsed metric families. -/
structure Deps (MF : Type) where
  TextToMetricFamilies : String → Except String MF
  PromToPodMetrics : MF → PodMetrics → Except String PodMetrics
  Schedule : Scheduler → LLMRequest → Except String Pod
  net : Net

/-- Calls observed on the proxy and on the scheduler. -/
inductive Call where
  /-- The call `SendLocalReply(code, body, headers, grpcStatus, details)`; the
  headers are always nil at the call site. -/
  | SendLocalReply (code : Nat) (body : String) (grpcStatus : Int) (details : String)
  /-- The calls `SetOverrideUpstreamHost(addr)` and
  `proxywasm.SetUpstreamOverrideHost(addr)`. -/
  | SetOverrideUpstreamHost (addr : String)
  /-- The call `scheduler.Schedule(req)`. -/
  | Schedule (s : Scheduler) (req : LLMRequest)
deriving DecidableEq, Repr

/-- The constant `http.StatusTooManyRequests`. -/
def StatusTooManyRequests : Nat := 429

/-! ## `plugins/golang-filter/llm-scheduler` -/

namespace LlmScheduler

/-- The struct `config`: `criticalModels` is a `map[string]struct{}`, a set of
strings that may be nil (`none`). -/
structure config where
  criticalModels : Option (List String)
deriving DecidableEq, Repr

/-- The method `config.isCritical`: indexing a nil map finds nothing. -/
def config.isCritical (c : config) (model : String) : Bool :=
  match c.criticalModels with
  | none => false
  | some ms => decide (model ∈ ms)

/-- The loop of `Parser.Parse` over the elements of the configured list: every
string element is added to the set, every other element is skipped. -/
def Parse.collect : List Value → List String → List String
  | [], acc => acc
  | Value.string model :: rest, acc => Parse.collect rest (acc.insert model)
  | _ :: rest, acc => Parse.collect rest acc

/-- The method `Parser.Parse`, from the result of `any.UnmarshalTo(configStruct)`
on: `v` is `configStruct.Value.AsMap()`. -/
def Parse (unmarshalled : Except String (List (String × Value))) : Except String config :=
  match unmarshalled with
  | .error err => .error err
  | .ok v =>
    match v.lookup "criticalModels" with
    | some (Value.list criticalModels) =>
      .ok { criticalModels := some (Parse.collect criticalModels []) }
    | _ => .ok { criticalModels := none }

/-- The value `Parser.Merge` computes for `newConfig`, from the values of
`*parentConfig` and `*childConfig`. -/
def Merge (parent child : config) : config :=
  let newConfig := parent
  match child.criticalModels with
  | some ms => { newConfig with criticalModels := some ms }
  | none => newConfig

/-- The `config` values allocated so far; a `*config` is an index into the
store, and a pointer to no `config` is an index past its end. -/
abbrev Store := List config

/-- The assignment `ptr.criticalModels = v` through a `*config`. -/
def Store.assignCriticalModels (store : Store) (ptr : Nat) (v : Option (List String)) :
    Store :=
  match store[ptr]? with
  | some c => store.set ptr { c with criticalModels := v }
  | none => store

/-- The method `Parser.Merge`, on the store: the store afterwards and the
pointer returned.  `newConfig := *parentConfig` is a new variable, which gets a
new cell because its address is returned; the assignment in the `if` goes to
that cell.  The run is `none` when `parent` or `child` points to no `config`. -/
def Parser.Merge (store : Store) (parent child : Nat) : Option (Store × Nat) :=
  match store[parent]?, store[child]? with
  | some parentConfig, some childConfig =>
    let newConfig := store.length
    let store := store ++ [parentConfig]
    let store :=
      if childConfig.criticalModels.isSome then
        store.assignCriticalModels newConfig childConfig.criticalModels
      else
        store
    some (store, newConfig)
  | _, _ => none

/-- The values of `api.StatusType` the filter returns. -/
inductive StatusType where
  | Continue
  | StopAndBuffer
  | LocalReply
deriving DecidableEq, Repr

/-- The part of `api.FilterCallbackHandler` the filter reads:
`StreamInfo().DynamicMetadata().Get(filterName)`. -/
structure FilterCallbackHandler where
  DynamicMetadata : String → List (String × Value)

/-- The struct `filter`; a nil `scheduler` is `none`. -/
structure filter where
  config : config
  buffer : String
  scheduler : Option Scheduler
  callbacks : FilterCallbackHandler

/-- The function `isValidAddress` of `filter.go`. -/
def isValidAddress (net : Net) (s : String) : Bool :=
  match net.SplitHostPort s with
  | .error _ => false
  | .ok (host, port) =>
    match net.LookupPort "tcp" port with
    | .error _ => false
    | .ok _ =>
      let ip := net.ParseIP host
      ip.isSome

/-- The `for addr, metric := range infos` loop of `filter.SetScheduler`, with the
slice `pms` built so far.  `none`: the assertion `metric.(string)` panicked;
`some (.error err)`: the loop returned `err`; `some (.ok pms)`: the loop ended. -/
def SetScheduler.loop {MF : Type} (d : Deps MF) :
    List (String × Value) → List PodMetrics → Option (Except String (List PodMetrics))
  | [], pms => some (.ok pms)
  | (addr, Value.string metric) :: rest, pms =>
    match d.TextToMetricFamilies metric with
    | .error err => some (.error err)
    | .ok metricFamilies =>
      match d.PromToPodMetrics metricFamilies (PodMetrics.fresh addr) with
      | .error err => some (.error err)
      | .ok pm => SetScheduler.loop d rest (pms ++ [pm])
  | (_, _) :: _, _ => none

/-- The method `filter.SetScheduler`: the filter afterwards and the returned
error (`none` is nil). -/
def SetScheduler {MF : Type} (d : Deps MF) (f : filter) : Option (filter × Option String) :=
  let infos := f.callbacks.DynamicMetadata "envoy.filters.http.ip_setting"
  if infos.length = 0 then
    some (f, some "backend is not support llm scheduling")
  else
    match SetScheduler.loop d infos [] with
    | none => none
    | some (.error err) => some (f, some err)
    | some (.ok pms) => some ({ f with scheduler := some (NewScheduler pms) }, none)

/-- The result of one `DecodeData` call. -/
structure Outcome where
  filter : filter
  status : StatusType
  calls : List Call

/-- The method `filter.DecodeData`.  `jsonUnmarshal` is `json.Unmarshal` into a
`map[string]interface{}`. -/
def DecodeData {MF : Type} (d : Deps MF)
    (jsonUnmarshal : String → Except String (List (String × Value)))
    (f : filter) (buffer : String) (endStream : Bool) : Option Outcome :=
  let f := { f with buffer := f.buffer ++ buffer }
  if !endStream then
    some ⟨f, .StopAndBuffer, []⟩
  else
    match SetScheduler d f with
    | none => none
    | some (f, some _) => some ⟨f, .Continue, []⟩
    | some (f, none) =>
      match jsonUnmarshal f.buffer with
      | .error _ => some ⟨f, .Continue, []⟩
      | .ok rb =>
        match rb.lookup "model" with
        | some (Value.string model) =>
          let llmReq : LLMRequest :=
            { Model := model, Critical := f.config.isCritical model }
          match f.scheduler with
          | none => none
          | some scheduler =>
            match d.Schedule scheduler llmReq with
            | .error _ =>
              some ⟨f, .LocalReply,
                [.Schedule scheduler llmReq,
                 .SendLocalReply StatusTooManyRequests
                   "Request is dropped due to limited backend resources" 0 ""]⟩
            | .ok targetPod =>
              if isValidAddress d.net targetPod.Address then
                some ⟨f, .Continue,
                  [.Schedule scheduler llmReq, .SetOverrideUpstreamHost targetPod.Address]⟩
              else
                some ⟨f, .Continue, [.Schedule scheduler llmReq]⟩
        | _ => some ⟨f, .Continue, []⟩

end LlmScheduler

/-! ## `plugins/wasm-go/extensions/ai-load-balancer` -/

namespace AiLoadBalancer

/-- The struct `LBConfig`. -/
structure LBConfig where
  key : String
  count : Int
  window : Int
deriving DecidableEq, Repr

/-- The values of `types.Action`. -/
inductive Action where
  | ActionContinue
  | ActionPause
deriving DecidableEq, Repr

/-- The order in which `range` visits the entries of a map: some rearrangement
of the entries. -/
structure RangeOrder where
  visit : List (String × String) → List (String × String)
  perm : ∀ m, (visit m).Perm m

/-- What the plugin asks of the proxy and of `gjson`. -/
structure Proxy where
  /-- The call `proxywasm.GetUpstreamHosts()`. -/
  GetUpstreamHosts : Except String (List (List String))
  /-- The expression `gjson.Get(json, path).String()`. -/
  gjsonGetString : String → String → String
  /-- The visiting order of `range hostMetrics`. -/
  range : RangeOrder

/-- The assignment `m[k] = v` on a `map[string]string` kept as a list of entries
with distinct keys. -/
def mapSet (m : List (String × String)) (k v : String) : List (String × String) :=
  if m.any (fun e => e.1 == k) then
    m.map (fun e => if e.1 == k then (k, v) else e)
  else
    m ++ [(k, v)]

/-- The function `isValidAddress` of `main.go`. -/
def isValidAddress (net : Net) (s : String) : Bool :=
  match net.SplitHostPort s with
  | .error _ => false
  | .ok (host, port) =>
    match net.LookupPort "tcp" port with
    | .error _ => false
    | .ok _ =>
      let ip := net.ParseIP host
      ip.isSome

/-- The `for addr, metric := range hostMetrics` loop of `GetScheduler`, with the
slice `pms` built so far. -/
def GetScheduler.loop {MF : Type} (d : Deps MF) :
    List (String × String) → List PodMetrics → Except String (List PodMetrics)
  | [], pms => .ok pms
  | (addr, metric) :: rest, pms =>
    match d.TextToMetricFamilies metric with
    | .error err => .error err
    | .ok metricFamilies =>
      match d.PromToPodMetrics metricFamilies (PodMetrics.fresh addr) with
      | .error err => .error err
      | .ok pm => GetScheduler.loop d rest (pms ++ [pm])

/-- The function `GetScheduler`. -/
def GetScheduler {MF : Type} (d : Deps MF) (hostMetrics : List (String × String)) :
    Except String Scheduler :=
  if hostMetrics.length = 0 then
    .error "backend is not support llm scheduling"
  else
    match GetScheduler.loop d hostMetrics [] with
    | .error err => .error err
    | .ok pms => .ok (NewScheduler pms)

/-- The `for _, hostInfo := range hostInfos` loop of `onHttpRequestBody`, which
fills `hostMetrics`; `none` when `hostInfo[0]` or `hostInfo[1]` is out of
range. -/
def hostMetricsLoop (p : Proxy) :
    List (List String) → List (String × String) → Option (List (String × String))
  | [], hostMetrics => some hostMetrics
  | hostInfo :: rest, hostMetrics =>
    match hostInfo[0]?, hostInfo[1]? with
    | some addr, some info =>
      hostMetricsLoop p rest (mapSet hostMetrics addr (p.gjsonGetString info "metrics"))
    | _, _ => none

/-- The function `onHttpRequestBody`: the returned action and the calls made. -/
def onHttpRequestBody {MF : Type} (d : Deps MF) (p : Proxy) (_config : LBConfig)
    (_body : String) : Option (Action × List Call) :=
  let llmReq : LLMRequest := { Model := "meta-llama/Llama-2-7b-hf", Critical := true }
  match p.GetUpstreamHosts with
  | .error _ => some (.ActionContinue, [])
  | .ok hostInfos =>
    match hostMetricsLoop p hostInfos [] with
    | none => none
    | some hostMetrics =>
      match GetScheduler d (p.range.visit hostMetrics) with
      | .error _ => some (.ActionContinue, [])
      | .ok scheduler =>
        match d.Schedule scheduler llmReq with
        | .error _ => some (.ActionContinue, [.Schedule scheduler llmReq])
        | .ok targetPod =>
          if isValidAddress d.net targetPod.Address then
            some (.ActionContinue,
              [.Schedule scheduler llmReq, .SetOverrideUpstreamHost targetPod.Address])
          else
            some (.ActionContinue, [.Schedule scheduler llmReq])

end AiLoadBalancer

/-! ## The scheduler of the specification -/

namespace Scheduling

/-- Modelled from the spec: the fixed operating constants of the scheduler
(`SaturationThreshold`, `MaxQueueDepth` and the three score weights), which the
specification leaves tunable. -/
structure Params where
  SaturationThreshold : ℚ
  MaxQueueDepth : Nat
  W_queue : ℚ
  W_active : ℚ
  W_cache : ℚ

/-- Modelled from the spec: the only error the scheduler raises. -/
inductive SchedulerError where
  | NoCapacity
deriving DecidableEq, Repr

/-- Modelled from the spec: step 2 of `Schedule`, which is not among the sources.
An instance is healthy if `kvCacheUsageFraction < SaturationThreshold` and
`waitingQueueLength < MaxQueueDepth`, otherwise saturated. -/
def isHealthy (c : Params) (pm : PodMetrics) : Bool :=
  decide (pm.kvCacheUsageFraction < c.SaturationThreshold) &&
    decide (pm.waitingQueueLength < c.MaxQueueDepth)

/-- Modelled from the spec: step 3 of `Schedule`, which is not among the sources.
Best-effort request: the healthy instances.  Critical request: the healthy
instances if any exist, otherwise the full instance set. -/
def candidatePool (c : Params) (snapshot : List PodMetrics) (req : LLMRequest) :
    List PodMetrics :=
  let healthy := snapshot.filter (isHealthy c)
  if req.Critical then
    if healthy.isEmpty then snapshot else healthy
  else
    healthy

/-- Modelled from the spec: step 4 of `Schedule`, which is not among the sources.
`score = waitingQueueLength*W_queue + activeRequests*W_active +
kvCacheUsageFraction*W_cache`. -/
def score (c : Params) (pm : PodMetrics) : ℚ :=
  pm.waitingQueueLength * c.W_queue + pm.activeRequests * c.W_active +
    pm.kvCacheUsageFraction * c.W_cache

/-- Modelled from the spec: the lexical order of instance identities (step 5 of
`Schedule`), by name and then by address. -/
def identityLt (a b : Pod) : Bool :=
  decide (a.Name < b.Name) || (decide (a.Name = b.Name) && decide (a.Address < b.Address))

/-- Modelled from the spec: step 5 of `Schedule`; `a` wins over `b` when its score
is lower, or equal with the lexically smaller identity. -/
def beats (c : Params) (a b : PodMetrics) : Bool :=
  decide (score c a < score c b) ||
    (decide (score c a = score c b) && identityLt a.toPod b.toPod)

/-- Modelled from the spec: step 5 of `Schedule`, the minimum-score candidate
with ties broken by identity, as one pass that keeps the best seen so far. -/
def selectBest (c : Params) : PodMetrics → List PodMetrics → PodMetrics
  | best, [] => best
  | best, x :: xs => selectBest c (if beats c x best then x else best) xs

/-- Modelled from the spec: `scheduling.Scheduler.Schedule`, which is not among
the sources (section 4.4, steps 1 to 6). -/
def Schedule (c : Params) (s : Scheduler) (req : LLMRequest) : Except SchedulerError Pod :=
  if s.podMetrics.isEmpty then
    .error .NoCapacity
  else
    match candidatePool c s.podMetrics req with
    | [] => .error .NoCapacity
    | x :: xs => .ok (selectBest c x xs).toPod

/-- The key by which `beats` compares two candidates: the score, then the name,
then the address. -/
def key (c : Params) (pm : PodMetrics) : ℚ ×ₗ (String ×ₗ String) :=
  toLex (score c pm, toLex (pm.Name, pm.Address))

end Scheduling

/-! ## `plugins/wasm-go/extensions/ai-proxy/provider/hunyuan.go` -/

namespace Provider

/-- A Go `[]byte`. -/
abbrev Bytes := List UInt8

/-- The conversion `[]byte(s)`: the UTF-8 bytes of a string. -/
def toBytes (s : String) : Bytes := s.toUTF8.data.toList

/-- The constant `ssePrefix`. -/
def ssePrefix : String := "data: "

/-- The constant `hunyuanStreamEndMark`. -/
def hunyuanStreamEndMark : String := "stop"

/-- The constant `hunyuanAuthKeyLen`. -/
def hunyuanAuthKeyLen : Nat := 32

/-- The constant `hunyuanAuthIdLen`. -/
def hunyuanAuthIdLen : Nat := 36

/-- The struct `hunyuanChatMessage`. -/
structure hunyuanChatMessage where
  Role : String
  Content : String
deriving DecidableEq, Repr

/-- The struct `hunyuanTextGenChoice`. -/
structure hunyuanTextGenChoice where
  FinishReason : String
  Message : hunyuanChatMessage
  Delta : hunyuanChatMessage
deriving DecidableEq, Repr

/-- The struct `hunyuanTextGenUsage`. -/
structure hunyuanTextGenUsage where
  PromptTokens : Int
  CompletionTokens : Int
  TotalTokens : Int
deriving DecidableEq, Repr

/-- The struct `hunyuanTextGenDetailedResponseNonStreaming`. -/
structure hunyuanTextGenDetailedResponseNonStreaming where
  RequestId : String
  Note : String
  Choices : List hunyuanTextGenChoice
  Created : Int
  Id : String
  Usage : hunyuanTextGenUsage
deriving DecidableEq, Repr

/-- The part of `ProviderConfig` that `hunyuan.go` reads; the struct is declared
outside the sources at hand.  `isOriginal` is the result of `IsOriginal()`. -/
structure ProviderConfig where
  hunyuanAuthId : String
  hunyuanAuthKey : String
  isOriginal : Bool
deriving DecidableEq, Repr

/-- The struct `hunyuanProvider`, without its HTTP client and context cache. -/
structure hunyuanProvider where
  config : ProviderConfig
deriving DecidableEq, Repr

/-- The type `toolCall`, declared outside the sources at hand; only its empty
slice occurs in `hunyuan.go`. -/
structure toolCall where
deriving DecidableEq, Repr

/-- The fields of `chatMessage` that `hunyuan.go` sets. -/
structure chatMessage where
  Name : String
  Role : String
  Content : String
  ToolCalls : List toolCall
deriving DecidableEq, Repr

/-- The fields of `usage` that `hunyuan.go` sets. -/
structure usage where
  PromptTokens : Int
  CompletionTokens : Int
  TotalTokens : Int
deriving DecidableEq, Repr

/-- The fields of `chatCompletionChoice` that `hunyuan.go` sets; a nil pointer is
`none`. -/
structure chatCompletionChoice where
  FinishReason : Option String
  Delta : Option chatMessage
deriving DecidableEq, Repr

/-- The fields of `chatCompletionResponse` that `hunyuan.go` sets. -/
structure chatCompletionResponse where
  Id : String
  Created : Int
  Model : String
  SystemFingerprint : String
  Object : String
  Usage : Option usage
  Choices : List chatCompletionChoice
deriving DecidableEq, Repr

/-- What `hunyuan.go` takes from outside: `encoding/json`, the clock, the request
context and two constants of the package declared in other files. -/
structure Runtime where
  /-- The call `json.Unmarshal(data, &hunyuanTextGenDetailedResponseNonStreaming{})`. -/
  jsonUnmarshal : Bytes → Except String hunyuanTextGenDetailedResponseNonStreaming
  /-- The call `json.Marshal(openAIFormattedChunk)`, whose error is dropped. -/
  jsonMarshal : chatCompletionResponse → Bytes
  /-- The value `time.Now().UnixMilli()`. -/
  nowUnixMilli : Int
  /-- The value `ctx.GetStringContext(ctxKeyFinalRequestModel, "")`. -/
  finalRequestModel : String
  /-- The constant `ApiNameChatCompletion`. -/
  ApiNameChatCompletion : String
  /-- The constant `objectChatCompletionChunk`. -/
  objectChatCompletionChunk : String

/-- The method `hunyuanProviderInitializer.ValidateConfig`; `none` is the nil
error.  Go's `len` of a string is its number of bytes. -/
def ValidateConfig (config : ProviderConfig) : Option String :=
  if config.hunyuanAuthId.utf8ByteSize = 0 ∧ config.hunyuanAuthKey.utf8ByteSize = 0 then
    none
  else if config.hunyuanAuthId.utf8ByteSize ≠ hunyuanAuthIdLen ∨
      config.hunyuanAuthKey.utf8ByteSize ≠ hunyuanAuthKeyLen then
    some "hunyuanAuthId / hunyuanAuthKey is illegal in config file"
  else
    none

/-- The method `hunyuanProvider.useOpenAICompatibleAPI`. -/
def hunyuanProvider.useOpenAICompatibleAPI (m : hunyuanProvider) : Bool :=
  decide (m.config.hunyuanAuthId.utf8ByteSize = 0) &&
    decide (m.config.hunyuanAuthKey.utf8ByteSize = 0)

/-- The function `bytes.Index(s, sep)`: the index of the first instance of `sep`
in `s`; `none` is the result `-1`. -/
def bytesIndex : Bytes → Bytes → Option Nat
  | [], sep => if sep = [] then some 0 else none
  | b :: s, sep =>
    if sep.isPrefixOf (b :: s) then some 0 else (bytesIndex s sep).map (fun i => i + 1)

/-- The method `hunyuanProvider.convertChunkFromHunyuanToOpenAI`: the returned
bytes and error (`none` is nil).  The run is `none` when `Choices[0]` is out of
range. -/
def convertChunkFromHunyuanToOpenAI (rt : Runtime) (hunyuanChunk : Bytes) :
    Option (Bytes × Option String) :=
  match rt.jsonUnmarshal hunyuanChunk with
  | .error _ => some (toBytes "", none)
  | .ok hunyuanFormattedChunk =>
    let openAIFormattedChunk : chatCompletionResponse :=
      { Id := hunyuanFormattedChunk.Id
        Created := rt.nowUnixMilli.tdiv 1000
        Model := rt.finalRequestModel
        SystemFingerprint := ""
        Object := rt.objectChatCompletionChunk
        Usage := some
          { PromptTokens := hunyuanFormattedChunk.Usage.PromptTokens
            CompletionTokens := hunyuanFormattedChunk.Usage.CompletionTokens
            TotalTokens := hunyuanFormattedChunk.Usage.TotalTokens }
        Choices := [] }
    match hunyuanFormattedChunk.Choices[0]? with
    | none => none
    | some choice =>
      let openAIFormattedChunk : chatCompletionResponse :=
        if choice.FinishReason = hunyuanStreamEndMark then
          { openAIFormattedChunk with
            Choices := openAIFormattedChunk.Choices ++
              [{ FinishReason := some choice.FinishReason, Delta := none }] }
        else
          let deltaMsg : chatMessage :=
            { Name := "", Role := choice.Delta.Role, Content := choice.Delta.Content,
              ToolCalls := [] }
          { openAIFormattedChunk with
            Choices := openAIFormattedChunk.Choices ++
              [{ FinishReason := none, Delta := some deltaMsg }] }
      some (toBytes ssePrefix ++ rt.jsonMarshal openAIFormattedChunk ++ toBytes "\n\n", none)

/-- How a run of the streaming loop ends: it returns, it panics, or the model
ran out of steps. -/
inductive Run (α : Type) where
  | done (a : α)
  | panic
  | outOfFuel
deriving DecidableEq, Repr

/-- The state the `for` loop of `OnStreamingResponseBody` works on, with the
event data handed to the converter so far. -/
structure LoopState where
  newBufferedBody : Bytes
  outputBuffer : Bytes
  events : List Bytes
deriving DecidableEq, Repr

/-- The `for` loop of `OnStreamingResponseBody`, at most `fuel` iterations.  The
run panics when `newBufferedBody[:newEventPivot]` is taken with
`newEventPivot == -1`, and when the converter panics. -/
def OnStreamingResponseBody.loop (rt : Runtime) (isLastChunk : Bool) :
    Nat → LoopState → Run LoopState
  | 0, _ => .outOfFuel
  | fuel + 1, st =>
    match bytesIndex st.newBufferedBody (toBytes ssePrefix) with
    | none => .done st
    | some eventStartIndex =>
      let newBufferedBody := st.newBufferedBody.drop (eventStartIndex + ssePrefix.utf8ByteSize)
      match bytesIndex newBufferedBody (toBytes "\n\n") with
      | none =>
        if !isLastChunk then
          .done { st with newBufferedBody := newBufferedBody }
        else
          .panic
      | some newEventPivot =>
        let eventData := newBufferedBody.take newEventPivot
        let newBufferedBody := newBufferedBody.drop (newEventPivot + 2)
        match convertChunkFromHunyuanToOpenAI rt eventData with
        | none => .panic
        | some (convertedData, _) =>
          OnStreamingResponseBody.loop rt isLastChunk fuel
            { newBufferedBody := newBufferedBody
              outputBuffer := st.outputBuffer ++ convertedData
              events := st.events ++ [eventData] }

/-- What one call of `OnStreamingResponseBody` leaves behind: the bytes it
returns (its error is nil on every return), the value stored under
`ctxKeyStreamingBody`, and the event data it handed to the converter. -/
structure StreamResult where
  output : Bytes
  streamingBody : Option Bytes
  events : List Bytes
deriving DecidableEq, Repr

/-- The buffer `OnStreamingResponseBody` starts from: the chunk, appended to the
`[]byte` held under `ctxKeyStreamingBody` when there is one. -/
def bufferedWith (streamingBody : Option Bytes) (chunk : Bytes) : Bytes :=
  match streamingBody with
  | some bufferedBody => bufferedBody ++ chunk
  | none => chunk

/-- The method `hunyuanProvider.OnStreamingResponseBody`.  `streamingBody` is the
`[]byte` held under `ctxKeyStreamingBody`, `none` when there is none.  Each
iteration that goes on shortens the buffer, so one more iteration than the
buffer has bytes is enough. -/
def OnStreamingResponseBody (rt : Runtime) (m : hunyuanProvider)
    (streamingBody : Option Bytes) (name : String) (chunk : Bytes) (isLastChunk : Bool) :
    Run StreamResult :=
  if m.config.isOriginal || m.useOpenAICompatibleAPI || name != rt.ApiNameChatCompletion then
    .done { output := chunk, streamingBody := streamingBody, events := [] }
  else
    let newBufferedBody := bufferedWith streamingBody chunk
    match OnStreamingResponseBody.loop rt isLastChunk (newBufferedBody.length + 1)
        { newBufferedBody := newBufferedBody, outputBuffer := [], events := [] } with
    | .done st =>
      .done { output := st.outputBuffer, streamingBody := some st.newBufferedBody,
              events := st.events }
    | .panic => .panic
    | .outOfFuel => .outOfFuel

/-- The successive calls of `OnStreamingResponseBody` on the chunks of one
response, each with its `isLastChunk` flag, the context carried from call to
call: the event data handed to the converter over all the calls. -/
def feed (rt : Runtime) (m : hunyuanProvider) (name : String) :
    Option Bytes → List (Bytes × Bool) → Run (List Bytes)
  | _, [] => .done []
  | streamingBody, (chunk, isLastChunk) :: rest =>
    match OnStreamingResponseBody rt m streamingBody name chunk isLastChunk with
    | .done r =>
      match feed rt m name r.streamingBody rest with
      | .done events => .done (r.events ++ events)
      | .panic => .panic
      | .outOfFuel => .outOfFuel
    | .panic => .panic
    | .outOfFuel => .outOfFuel

end Provider

/-! ## Stand-ins for the imported packages

Concrete, executable values of `Deps`, `Net` and `Proxy`, used only to evaluate
the hosts on explicit inputs. -/

namespace Demo

/-- A table that agrees with Go's package `net` on the three addresses
`10.0.0.1:8000`, `10.0.0.2:8000` and `backend.svc:8080`, their hosts and their
ports. -/
def net : Net where
  SplitHostPort := fun s =>
    if s = "10.0.0.1:8000" then .ok ("10.0.0.1", "8000")
    else if s = "10.0.0.2:8000" then .ok ("10.0.0.2", "8000")
    else if s = "backend.svc:8080" then .ok ("backend.svc", "8080")
    else .error "missing port in address"
  LookupPort := fun _ service =>
    if service = "8000" then .ok 8000
    else if service = "8080" then .ok 8080
    else .error "unknown port"
  ParseIP := fun host =>
    if host = "10.0.0.1" then some [10, 0, 0, 1]
    else if host = "10.0.0.2" then some [10, 0, 0, 2]
    else none

/-- A reader that rejects exactly the text `malformed`. -/
def reader (metric : String) : Except String String :=
  if metric = "malformed" then .error "text format parsing error" else .ok metric

/-- Operating constants for the scheduler of the specification: nothing is
healthy once one request waits. -/
def params : Params :=
  { SaturationThreshold := 1, MaxQueueDepth := 1, W_queue := 1, W_active := 1, W_cache := 1 }

/-- A mapper that reads a full queue and a full cache off the text `# busy` and
keeps the zero metrics otherwise. -/
def mapper (metricFamilies : String) (pm : PodMetrics) : Except String PodMetrics :=
  if metricFamilies = "# busy" then
    .ok { pm with waitingQueueLength := 7, kvCacheUsageFraction := 1 }
  else
    .ok pm

/-- The packages with the scheduler of the specification behind `Schedule`. -/
def deps : Deps String where
  TextToMetricFamilies := reader
  PromToPodMetrics := mapper
  Schedule := fun s req =>
    match Scheduling.Schedule params s req with
    | .ok pod => .ok pod
    | .error _ => .error "NoCapacity"
  net := net

/-- The packages with a scheduler that rejects every request. -/
def rejecting : Deps String where
  TextToMetricFamilies := reader
  PromToPodMetrics := fun _ pm => .ok pm
  Schedule := fun _ _ => .error "NoCapacity"
  net := net

/-- The packages with a scheduler that answers with one fixed pod. -/
def answering (pod : Pod) : Deps String where
  TextToMetricFamilies := reader
  PromToPodMetrics := fun _ pm => .ok pm
  Schedule := fun _ _ => .ok pod
  net := net

/-- A filter before its first `DecodeData` call, over the given metadata. -/
def newFilter (conf : LlmScheduler.config) (infos : List (String × Value)) :
    LlmScheduler.filter :=
  { config := conf, buffer := "", scheduler := none, callbacks := ⟨fun _ => infos⟩ }

/-- The filter after `SetScheduler` succeeded with the snapshot `pms`. -/
def scheduled (f : LlmScheduler.filter) (body : String) (pms : List PodMetrics) :
    LlmScheduler.filter :=
  { f with buffer := body, scheduler := some (NewScheduler pms) }

/-- The pod metrics the mapper yields for a busy instance. -/
def busy (addr : String) : PodMetrics :=
  { PodMetrics.fresh addr with waitingQueueLength := 7, kvCacheUsageFraction := 1 }

/-- A request body, the JSON object with the one member `"model":"llama"`. -/
def llamaBody : String := "\x7b\"model\":\"llama\"\x7d"

/-- A request body, the JSON object with the one member `"model":"qwen"`. -/
def qwenBody : String := "\x7b\"model\":\"qwen\"\x7d"

/-- A decoder that knows these two request bodies. -/
def jsonUnmarshal (body : String) : Except String (List (String × Value)) :=
  if body = llamaBody then .ok [("model", Value.string "llama")]
  else if body = qwenBody then .ok [("model", Value.string "qwen")]
  else .error "invalid character"

/-- A proxy with the given upstream hosts, whose maps are visited in insertion
order. -/
def proxy (hosts : List (List String)) : AiLoadBalancer.Proxy where
  GetUpstreamHosts := .ok hosts
  gjsonGetString := fun json _ => json
  range := ⟨id, fun _ => List.Perm.refl _⟩

/-- The `encoding/json` decoder on the two chunks these examples use: the empty
object, which decodes to the zero value, and an object with one choice that
ends the stream; it rejects every other input. -/
def hunyuanUnmarshal (data : Provider.Bytes) :
    Except String Provider.hunyuanTextGenDetailedResponseNonStreaming :=
  if data = Provider.toBytes "\x7b\x7d" then
    .ok { RequestId := "", Note := "", Choices := [], Created := 0, Id := "",
          Usage := ⟨0, 0, 0⟩ }
  else if data = Provider.toBytes "\x7b\"Choices\":[\x7b\"FinishReason\":\"stop\"\x7d]\x7d" then
    .ok { RequestId := "", Note := "",
          Choices := [{ FinishReason := "stop", Message := ⟨"", ""⟩, Delta := ⟨"", ""⟩ }],
          Created := 0, Id := "", Usage := ⟨0, 0, 0⟩ }
  else
    .error "invalid character"

/-- A runtime for the hunyuan provider: the decoder above and an encoder that
writes the `Object` field only. -/
def runtime : Provider.Runtime where
  jsonUnmarshal := hunyuanUnmarshal
  jsonMarshal := fun r => Provider.toBytes r.Object
  nowUnixMilli := 1716359713000
  finalRequestModel := "hunyuan-lite"
  ApiNameChatCompletion := "openai/v1/chatcompletions"
  objectChatCompletionChunk := "chat.completion.chunk"

/-- A provider configured with a 36-byte id and a 32-byte key, which therefore
speaks the native hunyuan protocol. -/
def hunyuan : Provider.hunyuanProvider :=
  { config :=
      { hunyuanAuthId := "AKIDz8krbsJ5yKBZQpn74WFkmLPx3EXAMPLE"
        hunyuanAuthKey := "Gu5t9xGARNpq86cd98joQYCN3EXAMPLE"
        isOriginal := false } }

end Demo

/-! ## Snapshot assembly -/

/-- Whether assembly rejects the telemetry `metric` of the instance `addr`: the
text does not parse, or its mapping to pod metrics fails. -/
def Deps.rejects {MF : Type} (d : Deps MF) (addr metric : String) : Bool :=
  match d.TextToMetricFamilies metric with
  | .error _ => true
  | .ok metricFamilies =>
    match d.PromToPodMetrics metricFamilies (PodMetrics.fresh addr) with
    | .error _ => true
    | .ok _ => false

/-- A telemetry map (address to exposition text) as dynamic metadata: every value
is a Go string. -/
def asMetadata (entries : List (String × String)) : List (String × Value) :=
  entries.map (fun e => (e.1, Value.string e.2))

/-- Modelled from the spec: the contract of `vllm.PromToPodMetrics`, which is not
among the sources.  The utilization mapper turns the parsed metrics of one
instance into its utilization record; the identity of the instance it is given
stays as it is. -/
def Deps.keepsIdentity {MF : Type} (d : Deps MF) : Prop :=
  ∀ metricFamilies pm pm', d.PromToPodMetrics metricFamilies pm = .ok pm' →
    pm'.toPod = pm.toPod

/-- Modelled from the spec: the `Schedule` the hosts call is the scheduler of the
specification, which is not among the sources, run with the operating constants
`c`: it places a request where that scheduler places it, and returns an error
where that scheduler fails with `NoCapacity`. -/
def Deps.conforms {MF : Type} (d : Deps MF) (c : Params) : Prop :=
  ∀ s req,
    match Scheduling.Schedule c s req with
    | .ok pod => d.Schedule s req = .ok pod
    | .error _ => ∃ err, d.Schedule s req = .error err

theorem GetScheduler_loop_rejects {MF : Type} (d : Deps MF) :
    ∀ (l : List (String × String)) (pms : List PodMetrics),
      (∃ e ∈ l, d.rejects e.1 e.2 = true) →
      ∃ err, AiLoadBalancer.GetScheduler.loop d l pms = .error err := by
  intro l
  induction l with
  | nil => intro pms h; obtain ⟨e, he, _⟩ := h; cases he
  | cons a rest ih =>
    intro pms h
    obtain ⟨addr, metric⟩ := a
    simp only [AiLoadBalancer.GetScheduler.loop]
    cases hp : d.TextToMetricFamilies metric with
    | error err => exact ⟨err, rfl⟩
    | ok mf =>
      dsimp only
      cases hm : d.PromToPodMetrics mf (PodMetrics.fresh addr) with
      | error err => exact ⟨err, rfl⟩
      | ok pm =>
        dsimp only
        apply ih
        obtain ⟨e, he, hr⟩ := h
        rcases List.mem_cons.mp he with rfl | he
        · simp [Deps.rejects, hp, hm] at hr
        · exact ⟨e, he, hr⟩

theorem SetScheduler_loop_asMetadata {MF : Type} (d : Deps MF) :
    ∀ (l : List (String × String)) (pms : List PodMetrics),
      LlmScheduler.SetScheduler.loop d (asMetadata l) pms
        = some (AiLoadBalancer.GetScheduler.loop d l pms) := by
  intro l
  induction l with
  | nil => intro pms; rfl
  | cons a rest ih =>
    intro pms
    obtain ⟨addr, metric⟩ := a
    simp only [asMetadata, List.map_cons, LlmScheduler.SetScheduler.loop,
      AiLoadBalancer.GetScheduler.loop]
    cases hp : d.TextToMetricFamilies metric with
    | error err => rfl
    | ok mf =>
      dsimp only
      cases hm : d.PromToPodMetrics mf (PodMetrics.fresh addr) with
      | error err => rfl
      | ok pm => exact ih _

theorem SetScheduler_rejects {MF : Type} (d : Deps MF) (f : LlmScheduler.filter)
    (visit : List (String × String))
    (hinfos : f.callbacks.DynamicMetadata "envoy.filters.http.ip_setting" = asMetadata visit)
    (hbad : ∃ e ∈ visit, d.rejects e.1 e.2 = true) :
    ∃ err, LlmScheduler.SetScheduler d f = some (f, some err) := by
  obtain ⟨err, herr⟩ := GetScheduler_loop_rejects d visit [] hbad
  have hne : (asMetadata visit).length ≠ 0 := by
    obtain ⟨e, he, _⟩ := hbad
    simp only [asMetadata, List.length_map]
    exact List.length_pos.mpr (List.ne_nil_of_mem he) |>.ne'
  refine ⟨err, ?_⟩
  simp only [LlmScheduler.SetScheduler, hinfos, hne, if_false,
    SetScheduler_loop_asMetadata, herr]

theorem GetScheduler_rejects {MF : Type} (d : Deps MF) (visit : List (String × String))
    (hbad : ∃ e ∈ visit, d.rejects e.1 e.2 = true) :
    ∃ err, AiLoadBalancer.GetScheduler d visit = .error err := by
  obtain ⟨err, herr⟩ := GetScheduler_loop_rejects d visit [] hbad
  have hne : visit.length ≠ 0 := by
    obtain ⟨e, he, _⟩ := hbad
    exact List.length_pos.mpr (List.ne_nil_of_mem he) |>.ne'
  refine ⟨err, ?_⟩
  simp only [AiLoadBalancer.GetScheduler, hne, if_false, herr]

/-- C1. Snapshot assembly is fail-fast and all-or-nothing.  For every telemetry
map `entries` (address to exposition text) and every order `visit` in which its
instances are visited: if the telemetry of at least one instance is rejected
(its text does not parse, or its mapping to pod metrics fails), then
`filter.SetScheduler` returns an error and leaves the filter, and so its
scheduler, as it was, and `GetScheduler` returns an error and no scheduler. -/
theorem assembly_fail_fast {MF : Type} (d : Deps MF)
    (entries visit : List (String × String)) (f : LlmScheduler.filter)
    (hvisit : visit.Perm entries)
    (hinfos : f.callbacks.DynamicMetadata "envoy.filters.http.ip_setting" = asMetadata visit)
    (hbad : ∃ e ∈ entries, d.rejects e.1 e.2 = true) :
    (∃ err, LlmScheduler.SetScheduler d f = some (f, some err)) ∧
    (∃ err, AiLoadBalancer.GetScheduler d visit = .error err) := by
  have hbad' : ∃ e ∈ visit, d.rejects e.1 e.2 = true := by
    obtain ⟨e, he, hr⟩ := hbad
    exact ⟨e, hvisit.mem_iff.mpr he, hr⟩
  exact ⟨SetScheduler_rejects d f visit hinfos hbad', GetScheduler_rejects d visit hbad'⟩

/-- The fail-fast theorem at two instances, one of them with malformed telemetry,
visited in the other order. -/
theorem assembly_fail_fast_witness :
    (∃ err, LlmScheduler.SetScheduler Demo.deps
        (Demo.newFilter ⟨none⟩
          (asMetadata [("10.0.0.2:8000", "malformed"), ("10.0.0.1:8000", "# ok")]))
      = some (Demo.newFilter ⟨none⟩
          (asMetadata [("10.0.0.2:8000", "malformed"), ("10.0.0.1:8000", "# ok")]),
        some err)) ∧
    (∃ err, AiLoadBalancer.GetScheduler Demo.deps
        [("10.0.0.2:8000", "malformed"), ("10.0.0.1:8000", "# ok")] = .error err) :=
  assembly_fail_fast Demo.deps
    [("10.0.0.1:8000", "# ok"), ("10.0.0.2:8000", "malformed")]
    [("10.0.0.2:8000", "malformed"), ("10.0.0.1:8000", "# ok")]
    (Demo.newFilter ⟨none⟩
      (asMetadata [("10.0.0.2:8000", "malformed"), ("10.0.0.1:8000", "# ok")]))
    (List.Perm.swap _ _ _) rfl
    ⟨("10.0.0.2:8000", "malformed"), by simp, by decide⟩

/-- C2, as stated, fails: over an empty telemetry map neither host succeeds.
`GetScheduler` returns the error "backend is not support llm scheduling" and
`filter.SetScheduler` returns the same error, leaving the scheduler nil. -/
theorem empty_assembly_is_error :
    AiLoadBalancer.GetScheduler Demo.deps []
      = .error "backend is not support llm scheduling" ∧
    (LlmScheduler.SetScheduler Demo.deps (Demo.newFilter ⟨none⟩ [])).map
        (fun r => (r.1.scheduler, r.2))
      = some (none, some "backend is not support llm scheduling") :=
  ⟨rfl, rfl⟩

/-- C2, amended.  Snapshot assembly over zero instances is an error: when the
telemetry map is empty, `filter.SetScheduler` returns the error
"backend is not support llm scheduling" and leaves the filter unchanged, and
`GetScheduler` returns the same error and no scheduler. -/
theorem empty_assembly_rejected {MF : Type} (d : Deps MF) (f : LlmScheduler.filter)
    (hempty : f.callbacks.DynamicMetadata "envoy.filters.http.ip_setting" = []) :
    LlmScheduler.SetScheduler d f
      = some (f, some "backend is not support llm scheduling") ∧
    AiLoadBalancer.GetScheduler d []
      = .error "backend is not support llm scheduling" := by
  constructor
  · simp [LlmScheduler.SetScheduler, hempty]
  · rfl

/-- The amended C2 at a filter whose metadata is empty. -/
theorem empty_assembly_rejected_witness :
    LlmScheduler.SetScheduler Demo.rejecting (Demo.newFilter ⟨some ["llama"]⟩ [])
      = some (Demo.newFilter ⟨some ["llama"]⟩ [],
          some "backend is not support llm scheduling") ∧
    AiLoadBalancer.GetScheduler Demo.rejecting []
      = .error "backend is not support llm scheduling" :=
  empty_assembly_rejected Demo.rejecting (Demo.newFilter ⟨some ["llama"]⟩ []) rfl

/-! ## The hosts around `Schedule` -/

theorem SetScheduler_frame {MF : Type} (d : Deps MF) (f f' : LlmScheduler.filter)
    (e : Option String) (h : LlmScheduler.SetScheduler d f = some (f', e)) :
    f'.config = f.config ∧ f'.buffer = f.buffer := by
  unfold LlmScheduler.SetScheduler at h
  dsimp only at h
  split at h
  · cases h; exact ⟨rfl, rfl⟩
  · split at h
    · cases h
    · cases h; exact ⟨rfl, rfl⟩
    · cases h; exact ⟨rfl, rfl⟩

theorem DecodeData_final {MF : Type} (d : Deps MF)
    (jsonUnmarshal : String → Except String (List (String × Value)))
    (f f' : LlmScheduler.filter) (buffer : String) (rb : List (String × Value))
    (model : String) (s : Scheduler)
    (hset : LlmScheduler.SetScheduler d { f with buffer := f.buffer ++ buffer }
      = some (f', none))
    (hjson : jsonUnmarshal f'.buffer = .ok rb)
    (hmodel : rb.lookup "model" = some (Value.string model))
    (hs : f'.scheduler = some s) :
    LlmScheduler.DecodeData d jsonUnmarshal f buffer true =
      match d.Schedule s { Model := model, Critical := f.config.isCritical model } with
      | .error _ =>
        some ⟨f', .LocalReply,
          [.Schedule s { Model := model, Critical := f.config.isCritical model },
           .SendLocalReply 429 "Request is dropped due to limited backend resources" 0 ""]⟩
      | .ok targetPod =>
        some ⟨f', .Continue,
          .Schedule s { Model := model, Critical := f.config.isCritical model } ::
            (if LlmScheduler.isValidAddress d.net targetPod.Address then
              [.SetOverrideUpstreamHost targetPod.Address] else [])⟩ := by
  have hc : f'.config = f.config := (SetScheduler_frame d _ f' none hset).1
  simp only [LlmScheduler.DecodeData, hset, hjson, hmodel, hs, hc, Bool.not_true,
    Bool.false_eq_true, if_false, StatusTooManyRequests]
  cases d.Schedule s { Model := model, Critical := f.config.isCritical model } with
  | error err => rfl
  | ok targetPod =>
    dsimp only
    split <;> rfl

theorem onHttpRequestBody_scheduled {MF : Type} (d : Deps MF) (p : AiLoadBalancer.Proxy)
    (config : AiLoadBalancer.LBConfig) (body : String)
    (hostInfos : List (List String)) (hostMetrics : List (String × String)) (s : Scheduler)
    (hhosts : p.GetUpstreamHosts = .ok hostInfos)
    (hmap : AiLoadBalancer.hostMetricsLoop p hostInfos [] = some hostMetrics)
    (hsched : AiLoadBalancer.GetScheduler d (p.range.visit hostMetrics) = .ok s) :
    AiLoadBalancer.onHttpRequestBody d p config body =
      match d.Schedule s { Model := "meta-llama/Llama-2-7b-hf", Critical := true } with
      | .error _ =>
        some (.ActionContinue,
          [.Schedule s { Model := "meta-llama/Llama-2-7b-hf", Critical := true }])
      | .ok targetPod =>
        some (.ActionContinue,
          .Schedule s { Model := "meta-llama/Llama-2-7b-hf", Critical := true } ::
            (if AiLoadBalancer.isValidAddress d.net targetPod.Address then
              [.SetOverrideUpstreamHost targetPod.Address] else [])) := by
  simp only [AiLoadBalancer.onHttpRequestBody, hhosts, hmap, hsched]
  cases d.Schedule s { Model := "meta-llama/Llama-2-7b-hf", Critical := true } with
  | error err => rfl
  | ok targetPod =>
    dsimp only
    split <;> rfl

/-- C3. In the golang filter, whenever the final `DecodeData` call reaches the
scheduler (assembly succeeded, the body is JSON with a string "model") and
`Schedule` returns an error, `DecodeData` returns `LocalReply`, and the calls it
makes after `Schedule` are exactly one `SendLocalReply` with status 429 and the
body "Request is dropped due to limited backend resources"; no upstream-host
override is set. -/
theorem rejection_is_local_reply_429 {MF : Type} (d : Deps MF)
    (jsonUnmarshal : String → Except String (List (String × Value)))
    (f f' : LlmScheduler.filter) (buffer : String) (rb : List (String × Value))
    (model : String) (s : Scheduler) (err : String)
    (hset : LlmScheduler.SetScheduler d { f with buffer := f.buffer ++ buffer }
      = some (f', none))
    (hjson : jsonUnmarshal f'.buffer = .ok rb)
    (hmodel : rb.lookup "model" = some (Value.string model))
    (hs : f'.scheduler = some s)
    (hreject : d.Schedule s { Model := model, Critical := f.config.isCritical model }
      = .error err) :
    ∃ out, LlmScheduler.DecodeData d jsonUnmarshal f buffer true = some out ∧
      out.status = .LocalReply ∧
      out.calls =
        [.Schedule s { Model := model, Critical := f.config.isCritical model },
         .SendLocalReply 429 "Request is dropped due to limited backend resources" 0 ""] ∧
      ∀ addr, Call.SetOverrideUpstreamHost addr ∉ out.calls := by
  rw [DecodeData_final d jsonUnmarshal f f' buffer rb model s hset hjson hmodel hs, hreject]
  refine ⟨_, rfl, rfl, rfl, ?_⟩
  intro addr h
  simp at h

/-- The rejection theorem at one busy instance and a best-effort request, with
the scheduler of the specification behind `Schedule`. -/
theorem rejection_is_local_reply_429_witness :
    ∃ out, LlmScheduler.DecodeData Demo.deps Demo.jsonUnmarshal
        (Demo.newFilter ⟨some ["llama"]⟩ (asMetadata [("10.0.0.1:8000", "# busy")]))
        Demo.qwenBody true = some out ∧
      out.status = .LocalReply ∧
      out.calls =
        [.Schedule (NewScheduler [Demo.busy "10.0.0.1:8000"])
           { Model := "qwen",
             Critical := LlmScheduler.config.isCritical ⟨some ["llama"]⟩ "qwen" },
         .SendLocalReply 429 "Request is dropped due to limited backend resources" 0 ""] ∧
      ∀ addr, Call.SetOverrideUpstreamHost addr ∉ out.calls :=
  rejection_is_local_reply_429 Demo.deps Demo.jsonUnmarshal
    (Demo.newFilter ⟨some ["llama"]⟩ (asMetadata [("10.0.0.1:8000", "# busy")]))
    (Demo.scheduled
      (Demo.newFilter ⟨some ["llama"]⟩ (asMetadata [("10.0.0.1:8000", "# busy")]))
      Demo.qwenBody [Demo.busy "10.0.0.1:8000"])
    Demo.qwenBody [("model", Value.string "qwen")] "qwen"
    (NewScheduler [Demo.busy "10.0.0.1:8000"]) "NoCapacity"
    (by rfl) (by rfl) (by rfl) (by rfl) (by rfl)

/-- C5. The chosen address is validated before it is used.  In both hosts, for
every pod returned by `Schedule`, the host returns `Continue` (`ActionContinue`)
and the calls it makes after `Schedule` are: `SetOverrideUpstreamHost` with
exactly `pod.Address` when `isValidAddress(pod.Address)` is true, and none at
all when it is false (no override and no local reply). -/
theorem override_iff_valid_address {MF : Type} (d : Deps MF)
    (jsonUnmarshal : String → Except String (List (String × Value)))
    (f f' : LlmScheduler.filter) (buffer : String) (rb : List (String × Value))
    (model : String) (s : Scheduler) (pod : Pod)
    (p : AiLoadBalancer.Proxy) (config : AiLoadBalancer.LBConfig) (body : String)
    (hostInfos : List (List String)) (hostMetrics : List (String × String))
    (s' : Scheduler) (pod' : Pod)
    (hset : LlmScheduler.SetScheduler d { f with buffer := f.buffer ++ buffer }
      = some (f', none))
    (hjson : jsonUnmarshal f'.buffer = .ok rb)
    (hmodel : rb.lookup "model" = some (Value.string model))
    (hs : f'.scheduler = some s)
    (hpod : d.Schedule s { Model := model, Critical := f.config.isCritical model } = .ok pod)
    (hhosts : p.GetUpstreamHosts = .ok hostInfos)
    (hmap : AiLoadBalancer.hostMetricsLoop p hostInfos [] = some hostMetrics)
    (hsched : AiLoadBalancer.GetScheduler d (p.range.visit hostMetrics) = .ok s')
    (hpod' : d.Schedule s' { Model := "meta-llama/Llama-2-7b-hf", Critical := true }
      = .ok pod') :
    (∃ out, LlmScheduler.DecodeData d jsonUnmarshal f buffer true = some out ∧
      out.status = .Continue ∧
      out.calls =
        .Schedule s { Model := model, Critical := f.config.isCritical model } ::
          (if LlmScheduler.isValidAddress d.net pod.Address then
            [.SetOverrideUpstreamHost pod.Address] else [])) ∧
    AiLoadBalancer.onHttpRequestBody d p config body
      = some (.ActionContinue,
          .Schedule s' { Model := "meta-llama/Llama-2-7b-hf", Critical := true } ::
            (if AiLoadBalancer.isValidAddress d.net pod'.Address then
              [.SetOverrideUpstreamHost pod'.Address] else [])) := by
  constructor
  · rw [DecodeData_final d jsonUnmarshal f f' buffer rb model s hset hjson hmodel hs, hpod]
    exact ⟨_, rfl, rfl, rfl⟩
  · rw [onHttpRequestBody_scheduled d p config body hostInfos hostMetrics s' hhosts hmap
      hsched, hpod']

/-- The validation theorem with the scheduler of the specification: the filter
is given the instance `10.0.0.1:8000`, a valid address that becomes the
override, and the load balancer the instance `backend.svc:8080`, whose host is
no IP address, so that no override is set. -/
theorem override_iff_valid_address_witness :
    (∃ out, LlmScheduler.DecodeData Demo.deps Demo.jsonUnmarshal
        (Demo.newFilter ⟨some ["llama"]⟩ (asMetadata [("10.0.0.1:8000", "# ok")]))
        Demo.qwenBody true = some out ∧
      out.status = .Continue ∧
      out.calls =
        [.Schedule (NewScheduler [PodMetrics.fresh "10.0.0.1:8000"])
           { Model := "qwen", Critical := false },
         .SetOverrideUpstreamHost "10.0.0.1:8000"]) ∧
    AiLoadBalancer.onHttpRequestBody Demo.deps
        (Demo.proxy [["backend.svc:8080", "# ok"]]) ⟨"k", 1, 60⟩ Demo.qwenBody
      = some (.ActionContinue,
          [.Schedule (NewScheduler [PodMetrics.fresh "backend.svc:8080"])
            { Model := "meta-llama/Llama-2-7b-hf", Critical := true }]) :=
  override_iff_valid_address Demo.deps Demo.jsonUnmarshal
    (Demo.newFilter ⟨some ["llama"]⟩ (asMetadata [("10.0.0.1:8000", "# ok")]))
    (Demo.scheduled
      (Demo.newFilter ⟨some ["llama"]⟩ (asMetadata [("10.0.0.1:8000", "# ok")]))
      Demo.qwenBody [PodMetrics.fresh "10.0.0.1:8000"])
    Demo.qwenBody [("model", Value.string "qwen")] "qwen"
    (NewScheduler [PodMetrics.fresh "10.0.0.1:8000"]) ⟨"10.0.0.1:8000", "10.0.0.1:8000"⟩
    (Demo.proxy [["backend.svc:8080", "# ok"]]) ⟨"k", 1, 60⟩ Demo.qwenBody
    [["backend.svc:8080", "# ok"]] [("backend.svc:8080", "# ok")]
    (NewScheduler [PodMetrics.fresh "backend.svc:8080"]) ⟨"backend.svc:8080", "backend.svc:8080"⟩
    rfl rfl rfl rfl rfl rfl rfl rfl rfl

/-- C6. Malformed telemetry aborts scheduling for the whole request.  For every
final `DecodeData` call (`endStream` true) in which the telemetry of at least
one instance is rejected, whatever the order of the visit, `DecodeData` returns
`Continue` and makes no call: `Schedule` is not invoked, no upstream-host
override is set and no local reply is sent.  Likewise `onHttpRequestBody`
returns `ActionContinue` and makes no call. -/
theorem malformed_telemetry_aborts {MF : Type} (d : Deps MF)
    (jsonUnmarshal : String → Except String (List (String × Value)))
    (f : LlmScheduler.filter) (buffer : String)
    (entries visit : List (String × String))
    (p : AiLoadBalancer.Proxy) (config : AiLoadBalancer.LBConfig) (body : String)
    (hostInfos : List (List String)) (hostMetrics : List (String × String))
    (hvisit : visit.Perm entries)
    (hinfos : f.callbacks.DynamicMetadata "envoy.filters.http.ip_setting" = asMetadata visit)
    (hbad : ∃ e ∈ entries, d.rejects e.1 e.2 = true)
    (hhosts : p.GetUpstreamHosts = .ok hostInfos)
    (hmap : AiLoadBalancer.hostMetricsLoop p hostInfos [] = some hostMetrics)
    (hbad' : ∃ e ∈ hostMetrics, d.rejects e.1 e.2 = true) :
    LlmScheduler.DecodeData d jsonUnmarshal f buffer true
      = some ⟨{ f with buffer := f.buffer ++ buffer }, .Continue, []⟩ ∧
    AiLoadBalancer.onHttpRequestBody d p config body = some (.ActionContinue, []) := by
  constructor
  · have hv : ∃ e ∈ visit, d.rejects e.1 e.2 = true := by
      obtain ⟨e, he, hr⟩ := hbad
      exact ⟨e, hvisit.mem_iff.mpr he, hr⟩
    obtain ⟨err, herr⟩ :=
      SetScheduler_rejects d { f with buffer := f.buffer ++ buffer } visit hinfos hv
    simp only [LlmScheduler.DecodeData, herr, Bool.not_true, Bool.false_eq_true, if_false]
  · have hv : ∃ e ∈ p.range.visit hostMetrics, d.rejects e.1 e.2 = true := by
      obtain ⟨e, he, hr⟩ := hbad'
      exact ⟨e, (p.range.perm hostMetrics).mem_iff.mpr he, hr⟩
    obtain ⟨err, herr⟩ := GetScheduler_rejects d _ hv
    simp only [AiLoadBalancer.onHttpRequestBody, hhosts, hmap, herr]

/-- The abort theorem at two instances, the second of them with malformed
telemetry; the filter visits them in the other order. -/
theorem malformed_telemetry_aborts_witness :
    LlmScheduler.DecodeData Demo.deps Demo.jsonUnmarshal
        (Demo.newFilter ⟨some ["llama"]⟩
          (asMetadata [("10.0.0.2:8000", "malformed"), ("10.0.0.1:8000", "# ok")]))
        Demo.llamaBody true
      = some ⟨{ Demo.newFilter ⟨some ["llama"]⟩
                  (asMetadata [("10.0.0.2:8000", "malformed"), ("10.0.0.1:8000", "# ok")])
                with buffer := "" ++ Demo.llamaBody },
              .Continue, []⟩ ∧
    AiLoadBalancer.onHttpRequestBody Demo.deps
        (Demo.proxy [["10.0.0.1:8000", "# ok"], ["10.0.0.2:8000", "malformed"]])
        ⟨"k", 1, 60⟩ Demo.llamaBody
      = some (.ActionContinue, []) :=
  malformed_telemetry_aborts Demo.deps Demo.jsonUnmarshal
    (Demo.newFilter ⟨some ["llama"]⟩
      (asMetadata [("10.0.0.2:8000", "malformed"), ("10.0.0.1:8000", "# ok")]))
    Demo.llamaBody
    [("10.0.0.1:8000", "# ok"), ("10.0.0.2:8000", "malformed")]
    [("10.0.0.2:8000", "malformed"), ("10.0.0.1:8000", "# ok")]
    (Demo.proxy [["10.0.0.1:8000", "# ok"], ["10.0.0.2:8000", "malformed"]])
    ⟨"k", 1, 60⟩ Demo.llamaBody
    [["10.0.0.1:8000", "# ok"], ["10.0.0.2:8000", "malformed"]]
    [("10.0.0.1:8000", "# ok"), ("10.0.0.2:8000", "malformed")]
    (List.Perm.swap _ _ _) rfl
    ⟨("10.0.0.2:8000", "malformed"), by simp, by decide⟩
    rfl rfl
    ⟨("10.0.0.2:8000", "malformed"), by simp, by decide⟩

/-! ## The request descriptor -/

theorem Parse_collect_mem (m : String) :
    ∀ (L : List Value) (acc : List String),
      m ∈ LlmScheduler.Parse.collect L acc ↔ m ∈ acc ∨ Value.string m ∈ L := by
  intro L
  induction L with
  | nil => intro acc; simp [LlmScheduler.Parse.collect]
  | cons x rest ih =>
    intro acc
    cases x <;> simp [LlmScheduler.Parse.collect, ih, List.mem_insert_iff, or_assoc, or_comm]
    all_goals tauto

/-- C7. In the golang filter the criticality flag is exactly membership in the
configured allow-list.  For every configuration whose "criticalModels" value is
a list `L` and every final `DecodeData` call that reaches the scheduler with a
request body whose "model" is a string `m`: `Schedule` is called once, with
`Model = m` and with `Critical = true` if and only if `m` occurs as a string
element of `L`.  The flag is a function of `L` and `m` alone: the snapshot does
not enter. -/
theorem critical_is_allow_list_membership {MF : Type} (d : Deps MF)
    (jsonUnmarshal : String → Except String (List (String × Value)))
    (v : List (String × Value)) (L : List Value)
    (f f' : LlmScheduler.filter) (buffer : String) (rb : List (String × Value))
    (m : String) (s : Scheduler)
    (hlist : v.lookup "criticalModels" = some (Value.list L))
    (hconf : LlmScheduler.Parse (.ok v) = .ok f.config)
    (hset : LlmScheduler.SetScheduler d { f with buffer := f.buffer ++ buffer }
      = some (f', none))
    (hjson : jsonUnmarshal f'.buffer = .ok rb)
    (hmodel : rb.lookup "model" = some (Value.string m))
    (hs : f'.scheduler = some s) :
    ∃ out critical, LlmScheduler.DecodeData d jsonUnmarshal f buffer true = some out ∧
      out.calls.head? = some (.Schedule s { Model := m, Critical := critical }) ∧
      (∀ s' req, Call.Schedule s' req ∈ out.calls →
        s' = s ∧ req = { Model := m, Critical := critical }) ∧
      (critical = true ↔ Value.string m ∈ L) := by
  have hcrit : f.config.isCritical m = true ↔ Value.string m ∈ L := by
    simp only [LlmScheduler.Parse, hlist, Except.ok.injEq] at hconf
    rw [← hconf]
    simp [LlmScheduler.config.isCritical, Parse_collect_mem]
  rw [DecodeData_final d jsonUnmarshal f f' buffer rb m s hset hjson hmodel hs]
  cases d.Schedule s { Model := m, Critical := f.config.isCritical m } with
  | error err =>
    refine ⟨_, f.config.isCritical m, rfl, rfl, ?_, hcrit⟩
    intro s' req h
    simpa using h
  | ok pod =>
    refine ⟨_, f.config.isCritical m, rfl, rfl, ?_, hcrit⟩
    intro s' req h
    dsimp only at h
    split at h <;> simpa using h

/-- The allow-list theorem at the list `["llama", 3, "qwen2"]` and a request for
`llama`, which is critical. -/
theorem critical_is_allow_list_membership_witness :
    ∃ out critical, LlmScheduler.DecodeData Demo.deps Demo.jsonUnmarshal
        (Demo.newFilter ⟨some ["qwen2", "llama"]⟩ (asMetadata [("10.0.0.1:8000", "# busy")]))
        Demo.llamaBody true = some out ∧
      out.calls.head? = some (.Schedule (NewScheduler [Demo.busy "10.0.0.1:8000"])
        { Model := "llama", Critical := critical }) ∧
      (∀ s' req, Call.Schedule s' req ∈ out.calls →
        s' = NewScheduler [Demo.busy "10.0.0.1:8000"] ∧
        req = { Model := "llama", Critical := critical }) ∧
      (critical = true ↔
        Value.string "llama" ∈
          [Value.string "llama", Value.number 3, Value.string "qwen2"]) :=
  critical_is_allow_list_membership Demo.deps Demo.jsonUnmarshal
    [("criticalModels",
      Value.list [Value.string "llama", Value.number 3, Value.string "qwen2"])]
    [Value.string "llama", Value.number 3, Value.string "qwen2"]
    (Demo.newFilter ⟨some ["qwen2", "llama"]⟩ (asMetadata [("10.0.0.1:8000", "# busy")]))
    (Demo.scheduled
      (Demo.newFilter ⟨some ["qwen2", "llama"]⟩ (asMetadata [("10.0.0.1:8000", "# busy")]))
      Demo.llamaBody [Demo.busy "10.0.0.1:8000"])
    Demo.llamaBody [("model", Value.string "llama")] "llama"
    (NewScheduler [Demo.busy "10.0.0.1:8000"])
    rfl rfl rfl rfl rfl rfl

/-- C8, as stated, fails: for two request bodies that name different models,
`onHttpRequestBody` hands `Schedule` the same descriptor, with the model
"meta-llama/Llama-2-7b-hf" and `Critical` true. -/
theorem lb_descriptor_ignores_body :
    AiLoadBalancer.onHttpRequestBody Demo.deps (Demo.proxy [["10.0.0.1:8000", "# ok"]])
        ⟨"k", 1, 60⟩ Demo.llamaBody
      = some (.ActionContinue,
          [.Schedule (NewScheduler [PodMetrics.fresh "10.0.0.1:8000"])
             { Model := "meta-llama/Llama-2-7b-hf", Critical := true },
           .SetOverrideUpstreamHost "10.0.0.1:8000"]) ∧
    AiLoadBalancer.onHttpRequestBody Demo.deps (Demo.proxy [["10.0.0.1:8000", "# ok"]])
        ⟨"k", 1, 60⟩ Demo.qwenBody
      = some (.ActionContinue,
          [.Schedule (NewScheduler [PodMetrics.fresh "10.0.0.1:8000"])
             { Model := "meta-llama/Llama-2-7b-hf", Critical := true },
           .SetOverrideUpstreamHost "10.0.0.1:8000"]) :=
  ⟨rfl, rfl⟩

/-- C8, amended.  In the ai-load-balancer host the request descriptor given to
`Schedule` is fixed: whenever `onHttpRequestBody` calls `Schedule`, the
descriptor has `Model = "meta-llama/Llama-2-7b-hf"` and `Critical = true`, and
the whole outcome is the same for every request body and every plugin
configuration. -/
theorem lb_descriptor_is_fixed {MF : Type} (d : Deps MF) (p : AiLoadBalancer.Proxy)
    (config : AiLoadBalancer.LBConfig) (body : String)
    (out : AiLoadBalancer.Action × List Call) (s : Scheduler) (req : LLMRequest)
    (hout : AiLoadBalancer.onHttpRequestBody d p config body = some out)
    (hcall : Call.Schedule s req ∈ out.2) :
    req = { Model := "meta-llama/Llama-2-7b-hf", Critical := true } ∧
    ∀ config' body', AiLoadBalancer.onHttpRequestBody d p config' body' = some out := by
  refine ⟨?_, fun config' body' => hout⟩
  unfold AiLoadBalancer.onHttpRequestBody at hout
  dsimp only at hout
  split at hout
  · cases hout; simp at hcall
  · split at hout
    · cases hout
    · split at hout
      · cases hout; simp at hcall
      · split at hout
        · cases hout
          simp only [List.mem_singleton, Call.Schedule.injEq] at hcall
          exact hcall.2
        · split at hout
          · cases hout
            simp only [List.mem_cons, Call.Schedule.injEq, List.mem_singleton,
              reduceCtorEq, or_false, List.not_mem_nil] at hcall
            exact hcall.2
          · cases hout
            simp only [List.mem_singleton, Call.Schedule.injEq] at hcall
            exact hcall.2

/-- The fixed-descriptor theorem at one upstream host and a body that asks for
another model. -/
theorem lb_descriptor_is_fixed_witness :
    ({ Model := "meta-llama/Llama-2-7b-hf", Critical := true } : LLMRequest)
      = { Model := "meta-llama/Llama-2-7b-hf", Critical := true } ∧
    ∀ config' body',
      AiLoadBalancer.onHttpRequestBody Demo.deps (Demo.proxy [["10.0.0.1:8000", "# ok"]])
          config' body'
        = some (.ActionContinue,
            [.Schedule (NewScheduler [PodMetrics.fresh "10.0.0.1:8000"])
               { Model := "meta-llama/Llama-2-7b-hf", Critical := true },
             .SetOverrideUpstreamHost "10.0.0.1:8000"]) :=
  lb_descriptor_is_fixed Demo.deps (Demo.proxy [["10.0.0.1:8000", "# ok"]])
    ⟨"k", 1, 60⟩ Demo.qwenBody
    (.ActionContinue,
      [.Schedule (NewScheduler [PodMetrics.fresh "10.0.0.1:8000"])
         { Model := "meta-llama/Llama-2-7b-hf", Critical := true },
       .SetOverrideUpstreamHost "10.0.0.1:8000"])
    (NewScheduler [PodMetrics.fresh "10.0.0.1:8000"])
    { Model := "meta-llama/Llama-2-7b-hf", Critical := true }
    rfl (by simp)

/-! ## The scheduler of the specification: admission and selection -/

namespace Scheduling

theorem beats_iff (c : Params) (a b : PodMetrics) :
    beats c a b = true ↔ key c a < key c b := by
  simp only [beats, identityLt, key, Prod.Lex.lt_iff, Bool.or_eq_true, Bool.and_eq_true,
    decide_eq_true_eq]

theorem key_le_iff (c : Params) (a b : PodMetrics) :
    key c a ≤ key c b ↔
      score c a < score c b ∨
        (score c a = score c b ∧
          (a.Name < b.Name ∨ (a.Name = b.Name ∧ a.Address ≤ b.Address))) := by
  simp only [key, Prod.Lex.le_iff]

theorem key_eq_toPod (c : Params) (a b : PodMetrics) (h : key c a = key c b) :
    a.toPod = b.toPod := by
  have h1 : (score c a, toLex (a.Name, a.Address)) = (score c b, toLex (b.Name, b.Address)) :=
    toLex.injective h
  have h2 : (a.Name, a.Address) = (b.Name, b.Address) := toLex.injective (Prod.ext_iff.mp h1).2
  have h3 := Prod.ext_iff.mp h2
  cases a with
  | mk ap am =>
    cases b with
    | mk bp bm =>
      cases ap; cases bp
      simp only at h3
      simp only [Pod.mk.injEq]
      exact h3

theorem selectBest_spec (c : Params) :
    ∀ (xs : List PodMetrics) (best : PodMetrics),
      selectBest c best xs ∈ best :: xs ∧
      ∀ y ∈ best :: xs, key c (selectBest c best xs) ≤ key c y := by
  intro xs
  induction xs with
  | nil =>
    intro best
    simp [selectBest]
  | cons x xs ih =>
    intro best
    simp only [selectBest]
    obtain ⟨hmem, hle⟩ := ih (if beats c x best = true then x else best)
    have hstep : key c (if beats c x best = true then x else best) ≤ key c best ∧
        key c (if beats c x best = true then x else best) ≤ key c x := by
      by_cases hb : beats c x best = true
      · simp only [hb, if_true]
        exact ⟨le_of_lt ((beats_iff c x best).mp hb), le_refl _⟩
      · simp only [hb, if_false]
        refine ⟨le_refl _, ?_⟩
        exact not_lt.mp (fun hlt => hb ((beats_iff c x best).mpr hlt))
    have hfirst := hle _ (List.mem_cons_self _ _)
    constructor
    · rcases List.mem_cons.mp hmem with h | h
      · rw [h]
        by_cases hb : beats c x best = true
        · simp [hb]
        · simp [hb]
      · exact List.mem_cons_of_mem _ (List.mem_cons_of_mem _ h)
    · intro y hy
      rcases List.mem_cons.mp hy with rfl | hy
      · exact le_trans hfirst hstep.1
      · rcases List.mem_cons.mp hy with rfl | hy
        · exact le_trans hfirst hstep.2
        · exact hle y (List.mem_cons_of_mem _ hy)

theorem mem_candidatePool (c : Params) (snapshot : List PodMetrics) (req : LLMRequest)
    (x : PodMetrics) :
    x ∈ candidatePool c snapshot req ↔
      x ∈ snapshot ∧
        (isHealthy c x = true ∨
          (req.Critical = true ∧ ∀ y ∈ snapshot, isHealthy c y = false)) := by
  unfold candidatePool
  dsimp only
  by_cases hcrit : req.Critical = true
  · by_cases hempty : (List.filter (isHealthy c) snapshot).isEmpty = true
    · have hall : ∀ y ∈ snapshot, isHealthy c y = false := by
        intro y hy
        have hnil := List.isEmpty_iff.mp hempty
        by_contra hne
        have : y ∈ List.filter (isHealthy c) snapshot :=
          List.mem_filter.mpr ⟨hy, by simpa using hne⟩
        rw [hnil] at this
        cases this
      simp only [hcrit, hempty, if_true]
      constructor
      · intro hx; exact ⟨hx, Or.inr ⟨trivial, hall⟩⟩
      · intro hx; exact hx.1
    · have hsome : ¬ ∀ y ∈ snapshot, isHealthy c y = false := by
        intro hall
        apply hempty
        rw [List.isEmpty_iff]
        apply List.eq_nil_iff_forall_not_mem.mpr
        intro y hy
        have := List.mem_filter.mp hy
        rw [hall y this.1] at this
        exact Bool.false_ne_true this.2
      simp only [hcrit, hempty, if_true, if_false, List.mem_filter, Bool.false_eq_true]
      constructor
      · intro hx; exact ⟨hx.1, Or.inl hx.2⟩
      · rintro ⟨hx, h | ⟨_, h⟩⟩
        · exact ⟨hx, h⟩
        · exact absurd h hsome
  · simp only [hcrit, if_false, List.mem_filter, Bool.false_eq_true, false_and, or_false]

theorem candidatePool_mem_congr (c : Params) (s₁ s₂ : List PodMetrics) (req : LLMRequest)
    (h : ∀ x, x ∈ s₁ ↔ x ∈ s₂) (x : PodMetrics) :
    x ∈ candidatePool c s₁ req ↔ x ∈ candidatePool c s₂ req := by
  simp only [mem_candidatePool, h]

theorem Schedule_eq (c : Params) (s : Scheduler) (req : LLMRequest) :
    Schedule c s req =
      match candidatePool c s.podMetrics req with
      | [] => .error .NoCapacity
      | x :: xs => .ok (selectBest c x xs).toPod := by
  unfold Schedule
  by_cases hempty : s.podMetrics.isEmpty = true
  · have hnil := List.isEmpty_iff.mp hempty
    simp [hnil, candidatePool]
  · simp only [hempty, if_false, Bool.false_eq_true]

theorem Schedule_error_iff (c : Params) (s : Scheduler) (req : LLMRequest) :
    Schedule c s req = .error .NoCapacity ↔ candidatePool c s.podMetrics req = [] := by
  rw [Schedule_eq]
  cases candidatePool c s.podMetrics req with
  | nil => simp
  | cons x xs => simp

theorem Schedule_ok_spec (c : Params) (s : Scheduler) (req : LLMRequest) (p : Pod)
    (h : Schedule c s req = .ok p) :
    ∃ pm ∈ candidatePool c s.podMetrics req, pm.toPod = p ∧
      ∀ q ∈ candidatePool c s.podMetrics req, key c pm ≤ key c q := by
  rw [Schedule_eq] at h
  cases hpool : candidatePool c s.podMetrics req with
  | nil => rw [hpool] at h; cases h
  | cons x xs =>
    rw [hpool] at h
    simp only [Except.ok.injEq] at h
    obtain ⟨hmem, hle⟩ := selectBest_spec c xs x
    exact ⟨selectBest c x xs, hmem, h, hle⟩

end Scheduling

/-- C9. Admission control of the scheduler.  For every snapshot and request,
`Schedule` fails with `NoCapacity` if and only if the snapshot is empty, or the
request is non-critical and no instance is healthy (`kvCacheUsageFraction`
below the saturation threshold and `waitingQueueLength` below the maximum queue
depth).  In particular a critical request over a non-empty snapshot, saturated
or not, receives an instance of that snapshot. -/
theorem schedule_admission (c : Params) (s : Scheduler) (req : LLMRequest) :
    (Scheduling.Schedule c s req = .error .NoCapacity ↔
      s.podMetrics = [] ∨
        (req.Critical = false ∧
          ∀ pm ∈ s.podMetrics,
            ¬ (pm.kvCacheUsageFraction < c.SaturationThreshold ∧
                pm.waitingQueueLength < c.MaxQueueDepth))) ∧
    (req.Critical = true → s.podMetrics ≠ [] →
      ∃ pm ∈ s.podMetrics, Scheduling.Schedule c s req = .ok pm.toPod) := by
  have hhealthy : ∀ pm : PodMetrics, isHealthy c pm = true ↔
      (pm.kvCacheUsageFraction < c.SaturationThreshold ∧
        pm.waitingQueueLength < c.MaxQueueDepth) := by
    intro pm
    simp only [isHealthy, Bool.and_eq_true, decide_eq_true_eq]
  have hiff : Scheduling.Schedule c s req = .error .NoCapacity ↔
      s.podMetrics = [] ∨
        (req.Critical = false ∧
          ∀ pm ∈ s.podMetrics,
            ¬ (pm.kvCacheUsageFraction < c.SaturationThreshold ∧
                pm.waitingQueueLength < c.MaxQueueDepth)) := by
    rw [Schedule_error_iff, List.eq_nil_iff_forall_not_mem]
    constructor
    · intro hnone
      by_cases hnil : s.podMetrics = []
      · exact Or.inl hnil
      · right
        have hunhealthy : ∀ pm ∈ s.podMetrics, isHealthy c pm = false := by
          intro pm hpm
          by_contra hne
          exact hnone pm ((mem_candidatePool c _ req pm).mpr
            ⟨hpm, Or.inl (by simpa using hne)⟩)
        constructor
        · by_contra hcrit
          obtain ⟨x, hx⟩ := List.exists_mem_of_ne_nil _ hnil
          exact hnone x ((mem_candidatePool c _ req x).mpr
            ⟨hx, Or.inr ⟨by simpa using hcrit, hunhealthy⟩⟩)
        · intro pm hpm hh
          have := hunhealthy pm hpm
          rw [(hhealthy pm).mpr hh] at this
          cases this
    · rintro (hnil | ⟨hcrit, hall⟩) x hx
      · rw [mem_candidatePool, hnil] at hx
        cases hx.1
      · rw [mem_candidatePool] at hx
        rcases hx with ⟨hx, hh | ⟨hc, _⟩⟩
        · exact hall x hx ((hhealthy x).mp hh)
        · rw [hcrit] at hc
          cases hc
  refine ⟨hiff, ?_⟩
  intro hcrit hne
  cases hres : Scheduling.Schedule c s req with
  | error e =>
    cases e
    rcases hiff.mp hres with hnil | ⟨hc, _⟩
    · exact absurd hnil hne
    · rw [hcrit] at hc
      cases hc
  | ok p =>
    obtain ⟨pm, hpm, hp, _⟩ := Schedule_ok_spec c s req p hres
    exact ⟨pm, ((mem_candidatePool c _ req pm).mp hpm).1, by rw [hp]⟩

/-- The admission theorem at a snapshot of one saturated instance and a critical
request, which is placed on that instance. -/
theorem schedule_admission_witness :
    (Scheduling.Schedule Demo.params (NewScheduler [Demo.busy "10.0.0.1:8000"])
        { Model := "llama", Critical := true } = .error .NoCapacity ↔
      (NewScheduler [Demo.busy "10.0.0.1:8000"]).podMetrics = [] ∨
        ((({ Model := "llama", Critical := true } : LLMRequest).Critical = false) ∧
          ∀ pm ∈ (NewScheduler [Demo.busy "10.0.0.1:8000"]).podMetrics,
            ¬ (pm.kvCacheUsageFraction < Demo.params.SaturationThreshold ∧
                pm.waitingQueueLength < Demo.params.MaxQueueDepth))) ∧
    ∃ pm ∈ (NewScheduler [Demo.busy "10.0.0.1:8000"]).podMetrics,
      Scheduling.Schedule Demo.params (NewScheduler [Demo.busy "10.0.0.1:8000"])
        { Model := "llama", Critical := true } = .ok pm.toPod :=
  ⟨(schedule_admission Demo.params (NewScheduler [Demo.busy "10.0.0.1:8000"])
      { Model := "llama", Critical := true }).1,
   (schedule_admission Demo.params (NewScheduler [Demo.busy "10.0.0.1:8000"])
      { Model := "llama", Critical := true }).2 rfl (by simp [NewScheduler])⟩

/-- C10. Selection by the scheduler.  Whenever `Schedule` succeeds, the returned
instance belongs to the candidate pool, no candidate has a strictly lower score
(`waitingQueueLength*W_queue + activeRequests*W_active +
kvCacheUsageFraction*W_cache`), and among the candidates of that same score its
identity (name, then address) is lexically smallest.  Hence the result depends
only on the set of entries of the snapshot and on the request: a snapshot with
the same entries, assembled in any order, yields the same instance. -/
theorem schedule_selection (c : Params) (s : Scheduler) (req : LLMRequest) (p : Pod)
    (h : Scheduling.Schedule c s req = .ok p) :
    (∃ pm ∈ candidatePool c s.podMetrics req, pm.toPod = p ∧
      (∀ q ∈ candidatePool c s.podMetrics req, score c pm ≤ score c q) ∧
      (∀ q ∈ candidatePool c s.podMetrics req, score c q = score c pm →
        p.Name < q.Name ∨ (p.Name = q.Name ∧ p.Address ≤ q.Address))) ∧
    (∀ s' : Scheduler, (∀ x, x ∈ s'.podMetrics ↔ x ∈ s.podMetrics) →
      Scheduling.Schedule c s' req = .ok p) := by
  obtain ⟨pm, hpm, hp, hle⟩ := Schedule_ok_spec c s req p h
  constructor
  · refine ⟨pm, hpm, hp, ?_, ?_⟩
    · intro q hq
      rcases (key_le_iff c pm q).mp (hle q hq) with hlt | ⟨heq, _⟩
      · exact le_of_lt hlt
      · exact le_of_eq heq
    · intro q hq hscore
      rcases (key_le_iff c pm q).mp (hle q hq) with hlt | ⟨_, hid⟩
      · rw [hscore] at hlt
        exact absurd hlt (lt_irrefl _)
      · rw [← hp]
        exact hid
  · intro s' hsame
    have hpool : ∀ x, x ∈ candidatePool c s'.podMetrics req ↔
        x ∈ candidatePool c s.podMetrics req :=
      candidatePool_mem_congr c _ _ req hsame
    cases hres : Scheduling.Schedule c s' req with
    | error e =>
      cases e
      have hnil := (Schedule_error_iff c s' req).mp hres
      have := (hpool pm).mpr hpm
      rw [hnil] at this
      cases this
    | ok p' =>
      obtain ⟨pm', hpm', hp', hle'⟩ := Schedule_ok_spec c s' req p' hres
      have h1 : key c pm ≤ key c pm' := hle pm' ((hpool pm').mp hpm')
      have h2 : key c pm' ≤ key c pm := hle' pm ((hpool pm).mpr hpm)
      have := key_eq_toPod c pm' pm (le_antisymm h2 h1)
      rw [← hp', ← hp, this]

/-- The selection theorem at a snapshot of two idle instances of equal score:
the lexically smaller address is chosen, in whichever order they are listed. -/
theorem schedule_selection_witness :
    (∃ pm ∈ candidatePool Demo.params
        [PodMetrics.fresh "10.0.0.2:8000", PodMetrics.fresh "10.0.0.1:8000"]
        { Model := "llama", Critical := false },
      pm.toPod = ⟨"10.0.0.1:8000", "10.0.0.1:8000"⟩ ∧
      (∀ q ∈ candidatePool Demo.params
          [PodMetrics.fresh "10.0.0.2:8000", PodMetrics.fresh "10.0.0.1:8000"]
          { Model := "llama", Critical := false },
        score Demo.params pm ≤ score Demo.params q) ∧
      (∀ q ∈ candidatePool Demo.params
          [PodMetrics.fresh "10.0.0.2:8000", PodMetrics.fresh "10.0.0.1:8000"]
          { Model := "llama", Critical := false },
        score Demo.params q = score Demo.params pm →
          "10.0.0.1:8000" < q.Name ∨ ("10.0.0.1:8000" = q.Name ∧ "10.0.0.1:8000" ≤ q.Address))) ∧
    (∀ s' : Scheduler,
      (∀ x, x ∈ s'.podMetrics ↔
        x ∈ [PodMetrics.fresh "10.0.0.2:8000", PodMetrics.fresh "10.0.0.1:8000"]) →
      Scheduling.Schedule Demo.params s' { Model := "llama", Critical := false }
        = .ok ⟨"10.0.0.1:8000", "10.0.0.1:8000"⟩) :=
  schedule_selection Demo.params
    (NewScheduler [PodMetrics.fresh "10.0.0.2:8000", PodMetrics.fresh "10.0.0.1:8000"])
    { Model := "llama", Critical := false } ⟨"10.0.0.1:8000", "10.0.0.1:8000"⟩
    (by with_unfolding_all rfl)

/-! ## Merging configurations -/

theorem Merge_criticalModels (parent child : LlmScheduler.config) :
    (child.criticalModels ≠ none →
      (LlmScheduler.Merge parent child).criticalModels = child.criticalModels) ∧
    (child.criticalModels = none →
      (LlmScheduler.Merge parent child).criticalModels = parent.criticalModels) ∧
    (child.criticalModels ≠ none → ∀ model,
      (LlmScheduler.Merge parent child).isCritical model = child.isCritical model) ∧
    (child.criticalModels = none → ∀ model,
      (LlmScheduler.Merge parent child).isCritical model = parent.isCritical model) := by
  cases hc : child.criticalModels with
  | none =>
    refine ⟨fun h => absurd rfl h, fun _ => ?_, fun h => absurd rfl h, fun _ model => ?_⟩
    · simp [LlmScheduler.Merge, hc]
    · simp [LlmScheduler.Merge, hc]
  | some ms =>
    refine ⟨fun _ => ?_, fun h => ?_, fun _ model => ?_, fun h => ?_⟩
    · simp [LlmScheduler.Merge, hc]
    · cases h
    · simp [LlmScheduler.Merge, hc, LlmScheduler.config.isCritical]
    · cases h

theorem Parser_Merge_eq (store : LlmScheduler.Store) (parent child : Nat)
    (parentConfig childConfig : LlmScheduler.config)
    (hparent : store[parent]? = some parentConfig)
    (hchild : store[child]? = some childConfig) :
    LlmScheduler.Parser.Merge store parent child
      = some (store ++ [LlmScheduler.Merge parentConfig childConfig], store.length) := by
  simp only [LlmScheduler.Parser.Merge, hparent, hchild]
  cases hc : childConfig.criticalModels with
  | none => simp [LlmScheduler.Merge, hc]
  | some ms =>
    simp [LlmScheduler.Merge, hc, LlmScheduler.Store.assignCriticalModels]

/-- C11. `Parser.Merge` does not update the parent configuration.  For every
store and every parent and child `config` in it, `Merge` returns a pointer to
a new `config`, one that was not in the store before; every `config` that was
in the store, the parent and the child among them, is afterwards what it was,
`criticalModels` included; and the new `config` has the child's
`criticalModels` when the child's set is non-nil and the parent's otherwise.
Consequently `isCritical` on the merged configuration agrees with the child
whenever the child configured a list, even an empty one, and with the parent
otherwise. -/
theorem merge_returns_new_config (store : LlmScheduler.Store) (parent child : Nat)
    (parentConfig childConfig : LlmScheduler.config)
    (hparent : store[parent]? = some parentConfig)
    (hchild : store[child]? = some childConfig) :
    ∃ store' merged,
      LlmScheduler.Parser.Merge store parent child = some (store', store.length) ∧
      store[store.length]? = none ∧
      store'[store.length]? = some merged ∧
      (∀ (ptr : Nat) (config : LlmScheduler.config),
        store[ptr]? = some config → store'[ptr]? = some config) ∧
      store'[parent]? = some parentConfig ∧
      store'[child]? = some childConfig ∧
      (childConfig.criticalModels ≠ none →
        merged.criticalModels = childConfig.criticalModels) ∧
      (childConfig.criticalModels = none →
        merged.criticalModels = parentConfig.criticalModels) ∧
      (childConfig.criticalModels ≠ none → ∀ model,
        merged.isCritical model = childConfig.isCritical model) ∧
      (childConfig.criticalModels = none → ∀ model,
        merged.isCritical model = parentConfig.isCritical model) := by
  have hframe : ∀ (ptr : Nat) (config : LlmScheduler.config), store[ptr]? = some config →
      (store ++ [LlmScheduler.Merge parentConfig childConfig])[ptr]? = some config := by
    intro ptr config h
    have hlt : ptr < store.length := by
      by_contra hge
      rw [List.getElem?_eq_none (Nat.le_of_not_lt hge)] at h
      cases h
    rw [List.getElem?_append_left hlt]
    exact h
  obtain ⟨h1, h2, h3, h4⟩ := Merge_criticalModels parentConfig childConfig
  refine ⟨store ++ [LlmScheduler.Merge parentConfig childConfig],
    LlmScheduler.Merge parentConfig childConfig,
    Parser_Merge_eq store parent child parentConfig childConfig hparent hchild,
    List.getElem?_eq_none (Nat.le_refl _), ?_, hframe,
    hframe parent parentConfig hparent, hframe child childConfig hchild, h1, h2, h3, h4⟩
  simp

/-- The merge theorem at a store that holds a parent listing `llama` and a
child that configured the empty list: the new `config` is the third cell, it
carries the child's empty set, and the parent still lists `llama`. -/
theorem merge_returns_new_config_witness :
    ∃ store' merged,
      LlmScheduler.Parser.Merge [⟨some ["llama"]⟩, ⟨some []⟩] 0 1
        = some (store', [(⟨some ["llama"]⟩ : LlmScheduler.config), ⟨some []⟩].length) ∧
      [(⟨some ["llama"]⟩ : LlmScheduler.config), ⟨some []⟩][
        [(⟨some ["llama"]⟩ : LlmScheduler.config), ⟨some []⟩].length]? = none ∧
      store'[[(⟨some ["llama"]⟩ : LlmScheduler.config), ⟨some []⟩].length]? = some merged ∧
      (∀ (ptr : Nat) (config : LlmScheduler.config),
        [(⟨some ["llama"]⟩ : LlmScheduler.config), ⟨some []⟩][ptr]? = some config →
        store'[ptr]? = some config) ∧
      store'[0]? = some ⟨some ["llama"]⟩ ∧
      store'[1]? = some ⟨some []⟩ ∧
      (((⟨some []⟩ : LlmScheduler.config).criticalModels ≠ none) →
        merged.criticalModels = (⟨some []⟩ : LlmScheduler.config).criticalModels) ∧
      (((⟨some []⟩ : LlmScheduler.config).criticalModels = none) →
        merged.criticalModels = (⟨some ["llama"]⟩ : LlmScheduler.config).criticalModels) ∧
      (((⟨some []⟩ : LlmScheduler.config).criticalModels ≠ none) → ∀ model,
        merged.isCritical model = LlmScheduler.config.isCritical ⟨some []⟩ model) ∧
      (((⟨some []⟩ : LlmScheduler.config).criticalModels = none) → ∀ model,
        merged.isCritical model = LlmScheduler.config.isCritical ⟨some ["llama"]⟩ model) :=
  merge_returns_new_config [⟨some ["llama"]⟩, ⟨some []⟩] 0 1 ⟨some ["llama"]⟩ ⟨some []⟩
    rfl rfl

/-! ## The hunyuan provider -/

/-- C12. `ValidateConfig` accepts a configuration (returns a nil error) if and
only if `hunyuanAuthId` and `hunyuanAuthKey` are both empty, or `hunyuanAuthId`
has exactly 36 bytes and `hunyuanAuthKey` exactly 32.  For every accepted
configuration `useOpenAICompatibleAPI` is true exactly when both are empty, and
a configuration with only one of the two set is rejected. -/
theorem validate_config_accepts_iff (config : Provider.ProviderConfig) :
    (Provider.ValidateConfig config = none ↔
      (config.hunyuanAuthId.utf8ByteSize = 0 ∧ config.hunyuanAuthKey.utf8ByteSize = 0) ∨
      (config.hunyuanAuthId.utf8ByteSize = 36 ∧ config.hunyuanAuthKey.utf8ByteSize = 32)) ∧
    (Provider.ValidateConfig config = none →
      (Provider.hunyuanProvider.useOpenAICompatibleAPI ⟨config⟩ = true ↔
        config.hunyuanAuthId.utf8ByteSize = 0 ∧ config.hunyuanAuthKey.utf8ByteSize = 0)) ∧
    ((config.hunyuanAuthId.utf8ByteSize = 0 ∧ config.hunyuanAuthKey.utf8ByteSize ≠ 0) ∨
      (config.hunyuanAuthId.utf8ByteSize ≠ 0 ∧ config.hunyuanAuthKey.utf8ByteSize = 0) →
      Provider.ValidateConfig config
        = some "hunyuanAuthId / hunyuanAuthKey is illegal in config file") := by
  refine ⟨?_, ?_, ?_⟩
  · unfold Provider.ValidateConfig Provider.hunyuanAuthIdLen Provider.hunyuanAuthKeyLen
    split
    · rename_i h; simp [h]
    · rename_i h
      split
      · rename_i h2
        simp only [reduceCtorEq, false_iff]
        rintro (h3 | h3)
        · exact h h3
        · rcases h2 with h2 | h2
          · exact h2 h3.1
          · exact h2 h3.2
      · rename_i h2
        simp only [true_iff]
        right
        constructor
        · by_contra h3; exact h2 (Or.inl h3)
        · by_contra h3; exact h2 (Or.inr h3)
  · intro _
    simp [Provider.hunyuanProvider.useOpenAICompatibleAPI]
  · intro h
    unfold Provider.ValidateConfig Provider.hunyuanAuthIdLen Provider.hunyuanAuthKeyLen
    rcases h with ⟨h1, h2⟩ | ⟨h1, h2⟩
    · simp [h1, h2]
    · simp [h1, h2]

/-- The validation theorem at a configuration with a 36-byte id and a 32-byte
key: it is accepted and does not use the OpenAI-compatible API. -/
theorem validate_config_accepts_iff_witness :
    Provider.ValidateConfig Demo.hunyuan.config = none ∧
    (Provider.hunyuanProvider.useOpenAICompatibleAPI ⟨Demo.hunyuan.config⟩ = true ↔
      Demo.hunyuan.config.hunyuanAuthId.utf8ByteSize = 0 ∧
        Demo.hunyuan.config.hunyuanAuthKey.utf8ByteSize = 0) :=
  ⟨(validate_config_accepts_iff Demo.hunyuan.config).1.mpr (Or.inr (by decide)),
   (validate_config_accepts_iff Demo.hunyuan.config).2.1 (by decide)⟩

theorem loop_fuel_suffices (rt : Provider.Runtime) (isLastChunk : Bool) :
    ∀ (fuel : Nat) (st : Provider.LoopState), st.newBufferedBody.length < fuel →
      Provider.OnStreamingResponseBody.loop rt isLastChunk fuel st ≠ .outOfFuel := by
  intro fuel
  induction fuel with
  | zero => intro st h; exact absurd h (Nat.not_lt_zero _)
  | succ fuel ih =>
    intro st h
    unfold Provider.OnStreamingResponseBody.loop
    cases hstart : Provider.bytesIndex st.newBufferedBody (Provider.toBytes Provider.ssePrefix) with
    | none => simp
    | some eventStartIndex =>
      have hne : st.newBufferedBody ≠ [] := by
        intro hnil
        rw [hnil] at hstart
        have hnone : Provider.bytesIndex [] (Provider.toBytes Provider.ssePrefix) = none := by
          decide
        rw [hnone] at hstart
        cases hstart
      have hpos : 0 < st.newBufferedBody.length := List.length_pos.mpr hne
      dsimp only
      cases hpivot : Provider.bytesIndex
          (List.drop (eventStartIndex + Provider.ssePrefix.utf8ByteSize) st.newBufferedBody)
          (Provider.toBytes "\n\n") with
      | none =>
        dsimp only
        split <;> simp
      | some newEventPivot =>
        dsimp only
        cases hconv : Provider.convertChunkFromHunyuanToOpenAI rt
            (List.take newEventPivot
              (List.drop (eventStartIndex + Provider.ssePrefix.utf8ByteSize)
                st.newBufferedBody)) with
        | none => simp
        | some r =>
          dsimp only
          apply ih
          simp only [List.length_drop]
          omega

theorem OnStreamingResponseBody_returns_or_panics (rt : Provider.Runtime)
    (m : Provider.hunyuanProvider) (streamingBody : Option Provider.Bytes) (name : String)
    (chunk : Provider.Bytes) (isLastChunk : Bool) :
    Provider.OnStreamingResponseBody rt m streamingBody name chunk isLastChunk
      ≠ .outOfFuel := by
  unfold Provider.OnStreamingResponseBody
  split
  · simp
  · dsimp only
    split
    · simp
    · simp
    · rename_i h
      exact absurd h (loop_fuel_suffices rt isLastChunk _ _ (Nat.lt_succ_self _))

/-- C13 fails on the code.  When the call is the last one (`isLastChunk` true)
and the first event of the buffer, found at `eventStartIndex`, is not followed
by two newlines, `OnStreamingResponseBody` does not return: it goes past the
`break`, takes `newBufferedBody[:newEventPivot]` with `newEventPivot == -1`, and
panics. -/
theorem last_chunk_unterminated_event_panics (rt : Provider.Runtime)
    (m : Provider.hunyuanProvider) (streamingBody : Option Provider.Bytes) (name : String)
    (chunk : Provider.Bytes) (eventStartIndex : Nat)
    (hnative : m.config.isOriginal = false)
    (hauth : m.useOpenAICompatibleAPI = false)
    (hname : name = rt.ApiNameChatCompletion)
    (hstart : Provider.bytesIndex (Provider.bufferedWith streamingBody chunk)
      (Provider.toBytes Provider.ssePrefix) = some eventStartIndex)
    (hopen : Provider.bytesIndex
      ((Provider.bufferedWith streamingBody chunk).drop
        (eventStartIndex + Provider.ssePrefix.utf8ByteSize))
      (Provider.toBytes "\n\n") = none) :
    Provider.OnStreamingResponseBody rt m streamingBody name chunk true = .panic := by
  simp [Provider.OnStreamingResponseBody, Provider.OnStreamingResponseBody.loop, hnative,
    hauth, hname, hstart, hopen]

/-- The last chunk `data: hello`, with nothing buffered: the call panics, where
the same chunk, were it not the last, would be buffered. -/
theorem last_chunk_unterminated_event_panics_witness :
    Provider.OnStreamingResponseBody Demo.runtime Demo.hunyuan none
        "openai/v1/chatcompletions" (Provider.toBytes "data: hello") true = .panic ∧
    Provider.OnStreamingResponseBody Demo.runtime Demo.hunyuan none
        "openai/v1/chatcompletions" (Provider.toBytes "data: hello") false
      = .done { output := [], streamingBody := some (Provider.toBytes "hello"), events := [] } :=
  ⟨last_chunk_unterminated_event_panics Demo.runtime Demo.hunyuan none
      "openai/v1/chatcompletions" (Provider.toBytes "data: hello") 0
      (by decide) (by decide) (by decide) (by decide) (by decide),
   by decide⟩

/-- C14 fails on the code.  The stream `data: A` followed by two newlines holds
one event.  Delivered as the two chunks `data: A` and the two newlines, no
event is ever handed to the converter: the first call strips `data: ` before it
buffers `A`, so the second call finds no event in the buffer.  Delivered as one
chunk, the event `A` is extracted. -/
theorem split_event_is_dropped :
    Provider.feed Demo.runtime Demo.hunyuan "openai/v1/chatcompletions" none
        [(Provider.toBytes "data: A", false), (Provider.toBytes "\n\n", true)]
      = .done [] ∧
    Provider.feed Demo.runtime Demo.hunyuan "openai/v1/chatcompletions" none
        [(Provider.toBytes "data: A\n\n", true)]
      = .done [Provider.toBytes "A"] ∧
    Provider.OnStreamingResponseBody Demo.runtime Demo.hunyuan none
        "openai/v1/chatcompletions" (Provider.toBytes "data: A") false
      = .done { output := [], streamingBody := some (Provider.toBytes "A"), events := [] } := by
  decide

/-- C17 fails on the code.  When the chunk decodes to a value whose `Choices` is
empty, `convertChunkFromHunyuanToOpenAI` does not return: it reads `Choices[0]`
and panics. -/
theorem convert_chunk_without_choices_panics (rt : Provider.Runtime)
    (hunyuanChunk : Provider.Bytes)
    (decoded : Provider.hunyuanTextGenDetailedResponseNonStreaming)
    (hdecoded : rt.jsonUnmarshal hunyuanChunk = .ok decoded)
    (hchoices : decoded.Choices = []) :
    Provider.convertChunkFromHunyuanToOpenAI rt hunyuanChunk = none := by
  simp [Provider.convertChunkFromHunyuanToOpenAI, hdecoded, hchoices]

/-- The empty JSON object, which decodes to the zero value: the converter
panics. -/
theorem convert_chunk_without_choices_panics_witness :
    Provider.convertChunkFromHunyuanToOpenAI Demo.runtime (Provider.toBytes "\x7b\x7d")
      = none :=
  convert_chunk_without_choices_panics Demo.runtime (Provider.toBytes "\x7b\x7d")
    { RequestId := "", Note := "", Choices := [], Created := 0, Id := "", Usage := ⟨0, 0, 0⟩ }
    rfl rfl

/-! ## Address validation -/

/-- C15, as stated, fails: `backend.svc:8080` splits into the host `backend.svc`
and the port `8080`, which is a TCP port, and yet `isValidAddress` rejects it in
both hosts, because `backend.svc` is not an IP address. -/
theorem dns_host_is_rejected :
    Demo.net.SplitHostPort "backend.svc:8080" = .ok ("backend.svc", "8080") ∧
    Demo.net.LookupPort "tcp" "8080" = .ok 8080 ∧
    Demo.net.ParseIP "backend.svc" = none ∧
    LlmScheduler.isValidAddress Demo.net "backend.svc:8080" = false ∧
    AiLoadBalancer.isValidAddress Demo.net "backend.svc:8080" = false :=
  ⟨rfl, rfl, rfl, rfl, rfl⟩

/-- C15, amended.  `isValidAddress`, identical in both hosts, accepts exactly the
host:port addresses whose host is an IP address: `isValidAddress(s)` is true if
and only if `net.SplitHostPort(s)` succeeds with some host and port,
`net.LookupPort("tcp", port)` succeeds, and `net.ParseIP(host)` is not nil.  In
particular an address whose host is a DNS name, which `net.ParseIP` does not
parse, is rejected. -/
theorem valid_address_iff_ip_host (net : Net) (s : String) :
    (LlmScheduler.isValidAddress net s = true ↔
      ∃ host port, net.SplitHostPort s = .ok (host, port) ∧
        (∃ n, net.LookupPort "tcp" port = .ok n) ∧ net.ParseIP host ≠ none) ∧
    AiLoadBalancer.isValidAddress net s = LlmScheduler.isValidAddress net s ∧
    (∀ host port, net.SplitHostPort s = .ok (host, port) → net.ParseIP host = none →
      LlmScheduler.isValidAddress net s = false) := by
  refine ⟨?_, rfl, ?_⟩
  · unfold LlmScheduler.isValidAddress
    cases hsplit : net.SplitHostPort s with
    | error err => simp
    | ok hp =>
      obtain ⟨host, port⟩ := hp
      dsimp only
      cases hport : net.LookupPort "tcp" port with
      | error err =>
        simp only [Bool.false_eq_true, Except.ok.injEq, Prod.mk.injEq, false_iff]
        rintro ⟨host', port', ⟨_, hp'⟩, ⟨n, hn⟩, _⟩
        rw [← hp', hport] at hn
        cases hn
      | ok n =>
        dsimp only
        constructor
        · intro h
          refine ⟨host, port, rfl, ⟨n, hport⟩, ?_⟩
          intro hnone
          rw [hnone] at h
          cases h
        · rintro ⟨host', port', hsp, _, hip⟩
          simp only [Except.ok.injEq, Prod.mk.injEq] at hsp
          rw [← hsp.1] at hip
          exact Option.isSome_iff_ne_none.mpr hip
  · intro host port hsplit hnone
    unfold LlmScheduler.isValidAddress
    rw [hsplit]
    dsimp only
    cases net.LookupPort "tcp" port with
    | error err => rfl
    | ok n =>
      dsimp only
      rw [hnone]
      rfl

/-- The amended C15 at `backend.svc:8080`, rejected for its DNS host, next to
`10.0.0.1:8000`, accepted. -/
theorem valid_address_iff_ip_host_witness :
    LlmScheduler.isValidAddress Demo.net "backend.svc:8080" = false ∧
    (∃ host port, Demo.net.SplitHostPort "10.0.0.1:8000" = .ok (host, port) ∧
      (∃ n, Demo.net.LookupPort "tcp" port = .ok n) ∧ Demo.net.ParseIP host ≠ none) :=
  ⟨(valid_address_iff_ip_host Demo.net "backend.svc:8080").2.2 "backend.svc" "8080" rfl rfl,
   (valid_address_iff_ip_host Demo.net "10.0.0.1:8000").1.mp rfl⟩

/-! ## The snapshot handed to the scheduler -/

theorem GetScheduler_loop_identities {MF : Type} (d : Deps MF) (hid : d.keepsIdentity) :
    ∀ (l : List (String × String)) (acc pms : List PodMetrics),
      AiLoadBalancer.GetScheduler.loop d l acc = .ok pms →
      pms.map PodMetrics.toPod
        = acc.map PodMetrics.toPod ++ l.map (fun e => (⟨e.1, e.1⟩ : Pod)) := by
  intro l
  induction l with
  | nil =>
    intro acc pms h
    simp only [AiLoadBalancer.GetScheduler.loop, Except.ok.injEq] at h
    simp [h]
  | cons a rest ih =>
    intro acc pms h
    obtain ⟨addr, metric⟩ := a
    simp only [AiLoadBalancer.GetScheduler.loop] at h
    cases hp : d.TextToMetricFamilies metric with
    | error err => rw [hp] at h; cases h
    | ok mf =>
      rw [hp] at h
      dsimp only at h
      cases hm : d.PromToPodMetrics mf (PodMetrics.fresh addr) with
      | error err => rw [hm] at h; cases h
      | ok pm =>
        rw [hm] at h
        dsimp only at h
        have hpod : pm.toPod = ⟨addr, addr⟩ := by
          rw [hid mf _ pm hm]
          rfl
        rw [ih _ _ h]
        simp [hpod]

theorem SetScheduler_loop_identities {MF : Type} (d : Deps MF) (hid : d.keepsIdentity) :
    ∀ (l : List (String × Value)) (acc pms : List PodMetrics),
      LlmScheduler.SetScheduler.loop d l acc = some (.ok pms) →
      pms.map PodMetrics.toPod
        = acc.map PodMetrics.toPod ++ l.map (fun e => (⟨e.1, e.1⟩ : Pod)) := by
  intro l
  induction l with
  | nil =>
    intro acc pms h
    simp only [LlmScheduler.SetScheduler.loop, Option.some.injEq, Except.ok.injEq] at h
    simp [h]
  | cons a rest ih =>
    intro acc pms h
    obtain ⟨addr, value⟩ := a
    cases value with
    | string metric =>
      simp only [LlmScheduler.SetScheduler.loop] at h
      cases hp : d.TextToMetricFamilies metric with
      | error err => rw [hp] at h; simp at h
      | ok mf =>
        rw [hp] at h
        dsimp only at h
        cases hm : d.PromToPodMetrics mf (PodMetrics.fresh addr) with
        | error err => rw [hm] at h; simp at h
        | ok pm =>
          rw [hm] at h
          dsimp only at h
          have hpod : pm.toPod = ⟨addr, addr⟩ := by
            rw [hid mf _ pm hm]
            rfl
          rw [ih _ _ h]
          simp [hpod]
    | null => simp [LlmScheduler.SetScheduler.loop] at h
    | bool b => simp [LlmScheduler.SetScheduler.loop] at h
    | number x => simp [LlmScheduler.SetScheduler.loop] at h
    | list xs => simp [LlmScheduler.SetScheduler.loop] at h
    | struct fields => simp [LlmScheduler.SetScheduler.loop] at h

theorem Demo_deps_keepsIdentity : Demo.deps.keepsIdentity := by
  intro mf pm pm' h
  simp only [Demo.deps, Demo.mapper] at h
  split at h
  · simp only [Except.ok.injEq] at h
    rw [← h]
  · simp only [Except.ok.injEq] at h
    rw [← h]

/-- C16. When snapshot assembly succeeds, and the metric mapper keeps the
identity of the instance it is given, the pod metrics handed to `NewScheduler`
are, in the order of the visit, one entry per entry of the telemetry map and no
others, the entry of the key `addr` having `Name = Address = addr`; their number
is the number of instances.  This holds for `filter.SetScheduler` and for
`GetScheduler`. -/
theorem assembly_one_entry_per_instance {MF : Type} (d : Deps MF)
    (f f' : LlmScheduler.filter) (visit : List (String × String)) (s : Scheduler)
    (hid : d.keepsIdentity)
    (hset : LlmScheduler.SetScheduler d f = some (f', none))
    (hget : AiLoadBalancer.GetScheduler d visit = .ok s) :
    (∃ pms, f'.scheduler = some (NewScheduler pms) ∧
      pms.map PodMetrics.toPod
        = (f.callbacks.DynamicMetadata "envoy.filters.http.ip_setting").map
            (fun e => (⟨e.1, e.1⟩ : Pod)) ∧
      pms.length = (f.callbacks.DynamicMetadata "envoy.filters.http.ip_setting").length) ∧
    (s.podMetrics.map PodMetrics.toPod = visit.map (fun e => (⟨e.1, e.1⟩ : Pod)) ∧
      s.podMetrics.length = visit.length) := by
  constructor
  · unfold LlmScheduler.SetScheduler at hset
    dsimp only at hset
    split at hset
    · simp at hset
    · split at hset
      · cases hset
      · simp at hset
      · rename_i pms hloop
        simp only [Option.some.injEq, Prod.mk.injEq, and_true] at hset
        have hmap := SetScheduler_loop_identities d hid _ [] pms hloop
        simp only [List.map_nil, List.nil_append] at hmap
        refine ⟨pms, ?_, hmap, ?_⟩
        · rw [← hset]
        · have := congrArg List.length hmap
          simpa using this
  · unfold AiLoadBalancer.GetScheduler at hget
    split at hget
    · cases hget
    · split at hget
      · cases hget
      · rename_i pms hloop
        simp only [Except.ok.injEq] at hget
        have hmap := GetScheduler_loop_identities d hid _ [] pms hloop
        simp only [List.map_nil, List.nil_append] at hmap
        rw [← hget]
        refine ⟨hmap, ?_⟩
        have := congrArg List.length hmap
        simpa [NewScheduler] using this

/-- The snapshot theorem at two instances, one idle and one busy. -/
theorem assembly_one_entry_per_instance_witness :
    (∃ pms,
      (Demo.scheduled
        (Demo.newFilter ⟨none⟩
          (asMetadata [("10.0.0.2:8000", "# busy"), ("10.0.0.1:8000", "# ok")]))
        "" [Demo.busy "10.0.0.2:8000", PodMetrics.fresh "10.0.0.1:8000"]).scheduler
        = some (NewScheduler pms) ∧
      pms.map PodMetrics.toPod
        = ((Demo.newFilter ⟨none⟩
            (asMetadata [("10.0.0.2:8000", "# busy"), ("10.0.0.1:8000", "# ok")])).callbacks.DynamicMetadata
              "envoy.filters.http.ip_setting").map (fun e => (⟨e.1, e.1⟩ : Pod)) ∧
      pms.length
        = ((Demo.newFilter ⟨none⟩
            (asMetadata [("10.0.0.2:8000", "# busy"), ("10.0.0.1:8000", "# ok")])).callbacks.DynamicMetadata
              "envoy.filters.http.ip_setting").length) ∧
    ((NewScheduler [Demo.busy "10.0.0.2:8000", PodMetrics.fresh "10.0.0.1:8000"]).podMetrics.map
        PodMetrics.toPod
      = [("10.0.0.2:8000", "# busy"), ("10.0.0.1:8000", "# ok")].map
          (fun e => (⟨e.1, e.1⟩ : Pod)) ∧
      (NewScheduler [Demo.busy "10.0.0.2:8000", PodMetrics.fresh "10.0.0.1:8000"]).podMetrics.length
        = [("10.0.0.2:8000", "# busy"), ("10.0.0.1:8000", "# ok")].length) :=
  assembly_one_entry_per_instance Demo.deps
    (Demo.newFilter ⟨none⟩
      (asMetadata [("10.0.0.2:8000", "# busy"), ("10.0.0.1:8000", "# ok")]))
    (Demo.scheduled
      (Demo.newFilter ⟨none⟩
        (asMetadata [("10.0.0.2:8000", "# busy"), ("10.0.0.1:8000", "# ok")]))
      "" [Demo.busy "10.0.0.2:8000", PodMetrics.fresh "10.0.0.1:8000"])
    [("10.0.0.2:8000", "# busy"), ("10.0.0.1:8000", "# ok")]
    (NewScheduler [Demo.busy "10.0.0.2:8000", PodMetrics.fresh "10.0.0.1:8000"])
    Demo_deps_keepsIdentity rfl rfl

/-! ## The load balancer and rejection -/

theorem GetScheduler_loop_length {MF : Type} (d : Deps MF) :
    ∀ (l : List (String × String)) (acc pms : List PodMetrics),
      AiLoadBalancer.GetScheduler.loop d l acc = .ok pms →
      pms.length = acc.length + l.length := by
  intro l
  induction l with
  | nil =>
    intro acc pms h
    simp only [AiLoadBalancer.GetScheduler.loop, Except.ok.injEq] at h
    simp [h]
  | cons a rest ih =>
    intro acc pms h
    obtain ⟨addr, metric⟩ := a
    simp only [AiLoadBalancer.GetScheduler.loop] at h
    cases hp : d.TextToMetricFamilies metric with
    | error err => rw [hp] at h; cases h
    | ok mf =>
      rw [hp] at h
      dsimp only at h
      cases hm : d.PromToPodMetrics mf (PodMetrics.fresh addr) with
      | error err => rw [hm] at h; cases h
      | ok pm =>
        rw [hm] at h
        dsimp only at h
        rw [ih _ _ h]
        simp only [List.length_append, List.length_cons, List.length_nil]
        omega

theorem GetScheduler_ok_nonempty {MF : Type} (d : Deps MF) (visit : List (String × String))
    (s : Scheduler) (h : AiLoadBalancer.GetScheduler d visit = .ok s) :
    s.podMetrics ≠ [] := by
  unfold AiLoadBalancer.GetScheduler at h
  split at h
  · cases h
  · rename_i hlen
    split at h
    · cases h
    · rename_i pms hloop
      simp only [Except.ok.injEq] at h
      have hl := GetScheduler_loop_length d visit [] pms hloop
      intro hnil
      rw [← h] at hnil
      simp only [NewScheduler] at hnil
      rw [hnil] at hl
      simp only [List.length_nil, Nat.zero_add] at hl
      exact hlen hl.symm

theorem Schedule_critical_nonempty (c : Params) (s : Scheduler) (req : LLMRequest)
    (hcrit : req.Critical = true) (hne : s.podMetrics ≠ []) :
    ∃ pm ∈ s.podMetrics, Scheduling.Schedule c s req = .ok pm.toPod := by
  cases hres : Scheduling.Schedule c s req with
  | error e =>
    cases e
    have hnil := (Schedule_error_iff c s req).mp hres
    obtain ⟨x, hx⟩ := List.exists_mem_of_ne_nil _ hne
    exfalso
    by_cases hall : ∀ y ∈ s.podMetrics, isHealthy c y = false
    · have : x ∈ candidatePool c s.podMetrics req :=
        (mem_candidatePool c _ req x).mpr ⟨hx, Or.inr ⟨hcrit, hall⟩⟩
      rw [hnil] at this
      cases this
    · push_neg at hall
      obtain ⟨y, hy, hh⟩ := hall
      have : y ∈ candidatePool c s.podMetrics req :=
        (mem_candidatePool c _ req y).mpr ⟨hy, Or.inl (by simpa using hh)⟩
      rw [hnil] at this
      cases this
  | ok p =>
    obtain ⟨pm, hpm, hp, _⟩ := Schedule_ok_spec c s req p hres
    exact ⟨pm, ((mem_candidatePool c _ req pm).mp hpm).1, by rw [hp]⟩

theorem Demo_deps_conforms : Demo.deps.conforms Demo.params := by
  intro s req
  simp only [Demo.deps]
  cases Scheduling.Schedule Demo.params s req with
  | error e => exact ⟨"NoCapacity", rfl⟩
  | ok pod => rfl

/-- C4, as stated, fails: over an empty fleet the scheduler rejects the request
of this host with `NoCapacity`, and the rejection is not surfaced to the
client: `onHttpRequestBody` returns `ActionContinue`, having made no call. -/
theorem lb_empty_fleet_continues :
    Scheduling.Schedule Demo.params (NewScheduler [])
        { Model := "meta-llama/Llama-2-7b-hf", Critical := true }
      = .error .NoCapacity ∧
    AiLoadBalancer.onHttpRequestBody Demo.deps (Demo.proxy []) ⟨"k", 1, 60⟩ Demo.qwenBody
      = some (.ActionContinue, []) :=
  ⟨rfl, rfl⟩

/-- C4, amended.  In the ai-load-balancer host no scheduler rejection is
surfaced to the client.  With the scheduler of the specification behind
`Schedule`: whenever `onHttpRequestBody` returns, it returns `ActionContinue`
and has sent no reply; every `Schedule` call it makes is for a critical request
over a non-empty snapshot and is answered with an instance of that snapshot,
never with an error; and over an empty fleet, which that scheduler rejects with
`NoCapacity`, it makes no call at all, so the request continues without an
override. -/
theorem lb_surfaces_no_rejection {MF : Type} (d : Deps MF) (c : Params)
    (p : AiLoadBalancer.Proxy) (config : AiLoadBalancer.LBConfig) (body : String)
    (out : AiLoadBalancer.Action × List Call)
    (hspec : d.conforms c)
    (hout : AiLoadBalancer.onHttpRequestBody d p config body = some out) :
    out.1 = .ActionContinue ∧
    (∀ code text grpcStatus details,
      Call.SendLocalReply code text grpcStatus details ∉ out.2) ∧
    (∀ s req, Call.Schedule s req ∈ out.2 →
      s.podMetrics ≠ [] ∧ req.Critical = true ∧
      ∃ pm ∈ s.podMetrics, d.Schedule s req = .ok pm.toPod) ∧
    (p.GetUpstreamHosts = .ok [] →
      Scheduling.Schedule c (NewScheduler [])
          { Model := "meta-llama/Llama-2-7b-hf", Critical := true }
        = .error .NoCapacity ∧
      out.2 = []) := by
  have hempty : Scheduling.Schedule c (NewScheduler [])
      { Model := "meta-llama/Llama-2-7b-hf", Critical := true } = .error .NoCapacity := by
    simp [Scheduling.Schedule, NewScheduler]
  cases hhosts : p.GetUpstreamHosts with
  | error err =>
    simp only [AiLoadBalancer.onHttpRequestBody, hhosts, Option.some.injEq] at hout
    subst hout
    refine ⟨rfl, ?_, ?_, ?_⟩
    · intro code text grpcStatus details h; cases h
    · intro s req h; cases h
    · intro h; cases h
  | ok hostInfos =>
    cases hmap : AiLoadBalancer.hostMetricsLoop p hostInfos [] with
    | none =>
      simp [AiLoadBalancer.onHttpRequestBody, hhosts, hmap] at hout
    | some hostMetrics =>
      cases hsched : AiLoadBalancer.GetScheduler d (p.range.visit hostMetrics) with
      | error err =>
        simp only [AiLoadBalancer.onHttpRequestBody, hhosts, hmap, hsched,
          Option.some.injEq] at hout
        subst hout
        refine ⟨rfl, ?_, ?_, ?_⟩
        · intro code text grpcStatus details h; cases h
        · intro s req h; cases h
        · intro _; exact ⟨hempty, rfl⟩
      | ok s =>
        have hne : s.podMetrics ≠ [] := GetScheduler_ok_nonempty d _ s hsched
        obtain ⟨pm, hpm, hplace⟩ := Schedule_critical_nonempty c s
          { Model := "meta-llama/Llama-2-7b-hf", Critical := true } rfl hne
        have hd : d.Schedule s { Model := "meta-llama/Llama-2-7b-hf", Critical := true }
            = .ok pm.toPod := by
          have := hspec s { Model := "meta-llama/Llama-2-7b-hf", Critical := true }
          rw [hplace] at this
          exact this
        rw [onHttpRequestBody_scheduled d p config body hostInfos hostMetrics s hhosts hmap
          hsched, hd] at hout
        simp only [Option.some.injEq] at hout
        subst hout
        refine ⟨rfl, ?_, ?_, ?_⟩
        · intro code text grpcStatus details h
          dsimp only at h
          split at h <;> simp at h
        · intro s' req h
          dsimp only at h
          have hcall : s' = s ∧
              req = { Model := "meta-llama/Llama-2-7b-hf", Critical := true } := by
            split at h <;> simpa using h
          obtain ⟨hs, hreq⟩ := hcall
          subst hs
          subst hreq
          exact ⟨hne, rfl, pm, hpm, hd⟩
        · intro hnil
          exfalso
          simp only [Except.ok.injEq] at hnil
          subst hnil
          simp only [AiLoadBalancer.hostMetricsLoop, Option.some.injEq] at hmap
          subst hmap
          have hperm := p.range.perm []
          rw [List.perm_nil.mp hperm] at hsched
          simp [AiLoadBalancer.GetScheduler] at hsched

/-- The amended C4 at a fleet of one saturated instance: the request is placed
on it and continues with the override. -/
theorem lb_surfaces_no_rejection_witness :
    (AiLoadBalancer.Action.ActionContinue,
      [Call.Schedule (NewScheduler [Demo.busy "10.0.0.1:8000"])
         { Model := "meta-llama/Llama-2-7b-hf", Critical := true },
       Call.SetOverrideUpstreamHost "10.0.0.1:8000"]).1 = .ActionContinue ∧
    (∀ s req,
      Call.Schedule s req ∈
        (AiLoadBalancer.Action.ActionContinue,
          [Call.Schedule (NewScheduler [Demo.busy "10.0.0.1:8000"])
             { Model := "meta-llama/Llama-2-7b-hf", Critical := true },
           Call.SetOverrideUpstreamHost "10.0.0.1:8000"]).2 →
      s.podMetrics ≠ [] ∧ req.Critical = true ∧
      ∃ pm ∈ s.podMetrics, Demo.deps.Schedule s req = .ok pm.toPod) :=
  ⟨(lb_surfaces_no_rejection Demo.deps Demo.params
      (Demo.proxy [["10.0.0.1:8000", "# busy"]]) ⟨"k", 1, 60⟩ Demo.qwenBody
      (.ActionContinue,
        [.Schedule (NewScheduler [Demo.busy "10.0.0.1:8000"])
           { Model := "meta-llama/Llama-2-7b-hf", Critical := true },
         .SetOverrideUpstreamHost "10.0.0.1:8000"])
      Demo_deps_conforms rfl).1,
   (lb_surfaces_no_rejection Demo.deps Demo.params
      (Demo.proxy [["10.0.0.1:8000", "# busy"]]) ⟨"k", 1, 60⟩ Demo.qwenBody
      (.ActionContinue,
        [.Schedule (NewScheduler [Demo.busy "10.0.0.1:8000"])
           { Model := "meta-llama/Llama-2-7b-hf", Critical := true },
         .SetOverrideUpstreamHost "10.0.0.1:8000"])
      Demo_deps_conforms rfl).2.2.1⟩

end Higress
